import Mathlib

/-!
# Access-log DAO of EdgeAPI (`internal/db/models/http_access_log_dao.go`)

A shallow embedding of the ingestion queue (`CreateHTTPAccessLogs`, `SetupQueue`,
`DumpAccessLogsFromQueue`, `CreateHTTPAccessLog`), of the cross-shard search
(`listAccessLogs`, `ListAccessLogs`, with the named parameters of its keyword and
cursor clauses) and of the lookup by request id (`FindAccessLogWithRequestId`),
followed by theorems about them.

Conventions.
* Go `int` / `int64` values are `Int`; no arithmetic of the embedded code can overflow.
* A Go channel is a capacity and the FIFO list of the values it buffers; only the
  non-blocking `select ... default` operations of the source are modelled, with no
  goroutine running concurrently.
* The goroutines that a search starts, one per database node, are run one after the
  other in the order of `daoList`, each as a whole. The variables `domain` and
  `keyword`, which they share and assign to, pass from one task to the next.
* Go compares strings byte by byte; on UTF-8 text this is the lexicographic order of
  the code points, written here as the order of `String.toList`.
* What the source delegates to other packages (random numbers, JSON, the SQL
  database, the other DAOs) is passed in as a parameter.
-/

namespace models

/-! ## Data -/

/-- The fields of the protobuf message `pb.HTTPAccessLog` that the DAO reads. The other
fields of the message only travel inside the serialised `content`. -/
structure pb.HTTPAccessLog where
  RequestId : String
  ServerId : Int
  NodeId : Int
  Status : Int
  Timestamp : Int
  FirewallPolicyId : Int
  FirewallRuleGroupId : Int
  FirewallRuleSetId : Int
  FirewallRuleId : Int
  RequestBody : List Nat
  RemoteAddr : String
  Host : String
deriving DecidableEq, Repr

/-- A Go channel `chan T` made with `make(chan T, cap)`: `buf` lists the buffered
values, oldest first. An unbuffered channel has `cap = 0`. -/
structure Chan (α : Type) where
  cap : Nat
  buf : List α
deriving DecidableEq, Repr

/-- The channel `make(chan T, n)`. -/
def Chan.make {α : Type} (n : Nat) : Chan α := ⟨n, []⟩

/-- The statement `select { case q <- a: default: }`: the value is buffered when a slot
is free and discarded otherwise. -/
def Chan.trySend {α : Type} (q : Chan α) (a : α) : Chan α :=
  if q.buf.length < q.cap then { q with buf := q.buf ++ [a] } else q

/-- The statement `select { case a := <-q: ... default: ... }`: the oldest buffered
value and the rest of the channel, or `none` for the `default` branch. -/
def Chan.tryRecv {α : Type} (q : Chan α) : Option (α × Chan α) :=
  match q.buf with
  | [] => none
  | a :: rest => some (a, { q with buf := rest })

/-- The package-level queue variables of the source (lines 36-42). -/
structure QueueState where
  oldAccessLogQueue : Chan pb.HTTPAccessLog
  accessLogQueue : Chan pb.HTTPAccessLog
  accessLogQueueMaxLength : Int
  accessLogQueuePercent : Int
  accessLogCountPerSecond : Int
  accessLogConfigJSON : String
deriving DecidableEq, Repr

/-- The values the variables are initialised with. -/
def QueueState.init : QueueState where
  oldAccessLogQueue := Chan.make 0
  accessLogQueue := Chan.make 10000
  accessLogQueueMaxLength := 100000
  accessLogQueuePercent := 100
  accessLogCountPerSecond := 10000
  accessLogConfigJSON := ""

/-- The settings record `serverconfigs.AccessLogQueueConfig`. -/
structure AccessLogQueueConfig where
  MaxLength : Int
  CountPerSecond : Int
  Percent : Int
deriving DecidableEq, Repr

/-! ## Ingestion -/

/-- The loop of `CreateHTTPAccessLogs` over the batch. `percent` is
`accessLogQueuePercent`, `rand n` is the value of the `n`-th call of
`rands.Int(1, 100)`, and the `Nat` argument counts the calls made so far. Both
`return nil` statements leave the loop with the queue as it is. -/
def CreateHTTPAccessLogs.loop (percent : Int) (rand : Nat → Int) :
    Nat → Chan pb.HTTPAccessLog → List pb.HTTPAccessLog → Chan pb.HTTPAccessLog
  | _, queue, [] => queue
  | n, queue, accessLog :: rest =>
    if accessLog.FirewallPolicyId = 0 then
      if percent ≤ 0 then queue
      else if percent < 100 then
        if rand n > percent then queue
        else CreateHTTPAccessLogs.loop percent rand (n + 1) (queue.trySend accessLog) rest
      else CreateHTTPAccessLogs.loop percent rand n (queue.trySend accessLog) rest
    else CreateHTTPAccessLogs.loop percent rand n (queue.trySend accessLog) rest

/-- `CreateHTTPAccessLogs(tx, accessLogs)`: the returned error (always `nil`) and the
queue variables afterwards. -/
def CreateHTTPAccessLogs (rand : Nat → Int) (s : QueueState)
    (accessLogs : List pb.HTTPAccessLog) : Option String × QueueState :=
  (none, { s with accessLogQueue :=
    CreateHTTPAccessLogs.loop s.accessLogQueuePercent rand 0 s.accessLogQueue accessLogs })

/-- `SetupQueue()`. `readSetting` is what
`SharedSysSettingDAO.ReadSetting(nil, SettingCodeAccessLogQueue)` returns and
`unmarshal` is `json.Unmarshal` into an `AccessLogQueueConfig`. The `make` of line
629 is taken to return; `SetupQueue.makePanics` says for which settings it does
not. -/
def SetupQueue (readSetting : Except String String)
    (unmarshal : String → Except String AccessLogQueueConfig) (s : QueueState) : QueueState :=
  match readSetting with
  | .error _ => s
  | .ok configJSON =>
    if configJSON.utf8ByteSize = 0 then s
    else if s.accessLogConfigJSON = configJSON then s
    else
      let s1 := { s with accessLogConfigJSON := configJSON }
      match unmarshal configJSON with
      | .error _ => s1
      | .ok config =>
        let s2 := { s1 with accessLogQueuePercent := config.Percent,
                            accessLogCountPerSecond := config.CountPerSecond }
        let maxLength := if config.MaxLength ≤ 0 then 100000 else config.MaxLength
        if s2.accessLogQueueMaxLength ≠ maxLength then
          { s2 with accessLogQueueMaxLength := maxLength,
                    oldAccessLogQueue := s2.accessLogQueue,
                    accessLogQueue := Chan.make maxLength.toNat }
        else s2

/-- Whether `SetupQueue` reaches line 629 with a capacity above `maxChanLen`, the
largest capacity for which `make` returns on the machine. `make` then panics, after
lines 627-628 have assigned `accessLogQueueMaxLength` and `oldAccessLogQueue`;
`SetupQueue` above describes the runs in which `make` returns. -/
def SetupQueue.makePanics (maxChanLen : Int) (readSetting : Except String String)
    (unmarshal : String → Except String AccessLogQueueConfig) (s : QueueState) : Bool :=
  match readSetting with
  | .error _ => false
  | .ok configJSON =>
    if configJSON.utf8ByteSize = 0 then false
    else if s.accessLogConfigJSON = configJSON then false
    else
      match unmarshal configJSON with
      | .error _ => false
      | .ok config =>
        decide (s.accessLogQueueMaxLength ≠ (if config.MaxLength ≤ 0 then 100000 else config.MaxLength))
          && decide (maxChanLen < (if config.MaxLength ≤ 0 then 100000 else config.MaxLength))

/-! ## Persisting -/

/-- The table definition returned by `findHTTPAccessLogTable`. -/
structure httpAccessLogDefinition where
  Name : String
  HasRemoteAddr : Bool
  HasDomain : Bool
deriving DecidableEq, Repr

/-- The `fields` map that `CreateHTTPAccessLog` passes to `Sets`; an entry that the
source sets only under a condition is an `Option`. -/
structure Fields where
  serverId : Int
  nodeId : Int
  status : Int
  createdAt : Int
  requestId : String
  firewallPolicyId : Int
  firewallRuleGroupId : Int
  firewallRuleSetId : Int
  firewallRuleId : Int
  requestBody : Option (List Nat)
  remoteAddr : Option String
  domain : Option String
  content : String
deriving DecidableEq, Repr

/-- What `CreateHTTPAccessLog` needs from one database node, over a database state `W`:
`findHTTPAccessLogTable(dao.Instance, day, force)` and
`dao.Query(tx).Table(name).Sets(fields).Insert()`, each returning its error, if any,
and the database afterwards. -/
structure HTTPAccessLogDAO (W : Type) where
  findHTTPAccessLogTable : W → String → Bool → Except String httpAccessLogDefinition × W
  Insert : W → String → Fields → Option String × W

/-- The pure library calls of `CreateHTTPAccessLog`: `timeutil.Format("Ymd", ...)` of a
Unix time and `json.Marshal` of the message. -/
structure Lib where
  formatDay : Int → String
  jsonMarshal : pb.HTTPAccessLog → Except String String

/-- `strings.Contains(s, sub)`. -/
def stringsContains (s sub : String) : Bool :=
  s.toList.tails.any (fun t => sub.toList.isPrefixOf t)

/-- `CreateHTTPAccessLog(tx, dao, accessLog)`: the returned error and the database
afterwards. An insert error that does not mention `1146` is logged only. -/
def CreateHTTPAccessLog {W : Type} (lib : Lib) (dao : HTTPAccessLogDAO W) (w : W)
    (accessLog : pb.HTTPAccessLog) : Option String × W :=
  let day := lib.formatDay accessLog.Timestamp
  match dao.findHTTPAccessLogTable w day false with
  | (.error err, w1) => (some err, w1)
  | (.ok tableDef, w1) =>
    let stripped := { accessLog with RequestBody := [] }
    match lib.jsonMarshal stripped with
    | .error err => (some err, w1)
    | .ok content =>
      let fields : Fields :=
        { serverId := accessLog.ServerId
          nodeId := accessLog.NodeId
          status := accessLog.Status
          createdAt := accessLog.Timestamp
          requestId := accessLog.RequestId
          firewallPolicyId := accessLog.FirewallPolicyId
          firewallRuleGroupId := accessLog.FirewallRuleGroupId
          firewallRuleSetId := accessLog.FirewallRuleSetId
          firewallRuleId := accessLog.FirewallRuleId
          requestBody :=
            if accessLog.RequestBody.length > 0 then some accessLog.RequestBody else none
          remoteAddr := if tableDef.HasRemoteAddr then some accessLog.RemoteAddr else none
          domain := if tableDef.HasDomain then some accessLog.Host else none
          content := content }
      match dao.Insert w1 tableDef.Name fields with
      | (none, w2) => (none, w2)
      | (some err, w2) =>
        if stringsContains err "1146" then
          match dao.findHTTPAccessLogTable w2 day true with
          | (.error err2, w3) => (some err2, w3)
          | (.ok tableDef2, w3) =>
            match dao.Insert w3 tableDef2.Name fields with
            | (some err3, w4) => (some err3, w4)
            | (none, w4) => (none, w4)
        else (none, w2)

/-- The `fields` that `CreateHTTPAccessLog` passes to both inserts: the columns of the
record, `remoteAddr` and `domain` when the table resolved first has these columns,
and the serialised record. -/
def insertFields (accessLog : pb.HTTPAccessLog) (tableDef : httpAccessLogDefinition)
    (content : String) : Fields where
  serverId := accessLog.ServerId
  nodeId := accessLog.NodeId
  status := accessLog.Status
  createdAt := accessLog.Timestamp
  requestId := accessLog.RequestId
  firewallPolicyId := accessLog.FirewallPolicyId
  firewallRuleGroupId := accessLog.FirewallRuleGroupId
  firewallRuleSetId := accessLog.FirewallRuleSetId
  firewallRuleId := accessLog.FirewallRuleId
  requestBody := if accessLog.RequestBody.length > 0 then some accessLog.RequestBody else none
  remoteAddr := if tableDef.HasRemoteAddr then some accessLog.RemoteAddr else none
  domain := if tableDef.HasDomain then some accessLog.Host else none
  content := content

/-- The labelled loop of `DumpAccessLogsFromQueue`; the `Nat` argument is the number of
iterations left. The result is the returned error, the two queues and the database. -/
def DumpAccessLogsFromQueue.loop {W : Type} (lib : Lib) (dao : HTTPAccessLogDAO W) :
    Nat → Chan pb.HTTPAccessLog → Chan pb.HTTPAccessLog → W →
      Option String × Chan pb.HTTPAccessLog × Chan pb.HTTPAccessLog × W
  | 0, oldQueue, newQueue, w => (none, oldQueue, newQueue, w)
  | n + 1, oldQueue, newQueue, w =>
    match oldQueue.tryRecv with
    | some (accessLog, oldRest) =>
      match CreateHTTPAccessLog lib dao w accessLog with
      | (some err, w1) => (some err, oldRest, newQueue, w1)
      | (none, w1) => DumpAccessLogsFromQueue.loop lib dao n oldRest newQueue w1
    | none =>
      match newQueue.tryRecv with
      | some (accessLog, newRest) =>
        match CreateHTTPAccessLog lib dao w accessLog with
        | (some err, w1) => (some err, oldQueue, newRest, w1)
        | (none, w1) => DumpAccessLogsFromQueue.loop lib dao n oldQueue newRest w1
      | none => (none, oldQueue, newQueue, w)

/-- `DumpAccessLogsFromQueue(tx, size)`. `randomDAO` is what `randomHTTPAccessLogDAO()`
returns (`none` for `nil`) and `sharedDAO` is `SharedHTTPAccessLogDAO`. -/
def DumpAccessLogsFromQueue {W : Type} (lib : Lib) (randomDAO : Option (HTTPAccessLogDAO W))
    (sharedDAO : HTTPAccessLogDAO W) (s : QueueState) (size : Int) (w : W) :
    Option String × QueueState × W :=
  let dao := randomDAO.getD sharedDAO
  let size1 : Int := if size ≤ 0 then 1000000 else size
  match DumpAccessLogsFromQueue.loop lib dao size1.toNat s.oldAccessLogQueue s.accessLogQueue w with
  | (err, oldQueue, newQueue, w1) =>
    (err, { s with oldAccessLogQueue := oldQueue, accessLogQueue := newQueue }, w1)

/-! ## Search -/

/-- A row of a day table, as far as the DAO reads it: the columns written by
`CreateHTTPAccessLog` (the Go type `models.HTTPAccessLog`). -/
structure HTTPAccessLog where
  ServerId : Int
  NodeId : Int
  Status : Int
  CreatedAt : Int
  Content : String
  RequestId : String
  FirewallPolicyId : Int
  FirewallRuleGroupId : Int
  FirewallRuleSetId : Int
  FirewallRuleId : Int
  RemoteAddr : String
  Domain : String
deriving DecidableEq, Repr

/-- The table of one day on one database node: what `findHTTPAccessLogTableName` reports
about its columns, and its rows. -/
structure DayTable where
  hasRemoteAddrField : Bool
  hasDomainField : Bool
  rows : List HTTPAccessLog
deriving DecidableEq, Repr

/-- One database node of `httpAccessLogDAOMapping`. `tables day` is the table of that
day, `none` when `findHTTPAccessLogTableName` reports `exists = false`;
`tableLookupError` is the error of `findHTTPAccessLogTableName` and `queryError` the
error of `FindAll` (of `Find` in the lookup by request id), `none` for `nil`. -/
structure HTTPAccessLogDAOWrapper where
  NodeId : Int
  tables : String → Option DayTable
  tableLookupError : Option String
  queryError : Option String

/-- The arguments of `listAccessLogs` and `ListAccessLogs` other than `tx`. -/
structure SearchArgs where
  lastRequestId : String
  size : Int
  day : String
  clusterId : Int
  nodeId : Int
  serverId : Int
  reverse : Bool
  hasError : Bool
  firewallPolicyId : Int
  firewallRuleGroupId : Int
  firewallRuleSetId : Int
  hasFirewallPolicy : Bool
  userId : Int
  keyword : String
  ip : String
  domain : String
deriving DecidableEq, Repr

/-- What the search reads besides its arguments: the node registry and the default DAO;
the ids and the error returned by `SharedServerDAO.FindAllEnabledServerIdsWithUserId`
and by `SharedNodeDAO.FindAllEnabledNodeIdsWithClusterId`; whether `net.ParseIP`
reads a text as an address; and the three text predicates as the database evaluates
them on a row (lines 371-390 for `ip`, 391-406 for `domain`, 407-472 for `keyword`;
the `String` is the value that the variable holds when the task reaches these lines
and the `Bool` says whether the table has the `remoteAddr`, respectively the
`domain`, column). The keyword group may compare the request id with the named
parameter `requestId` (lines 461-464), a name that the cursor clause binds again
afterwards (lines 477-481): the `Option String` argument of `keywordMatches` is the
value the cursor clause binds, `none` for an empty cursor. -/
structure SearchEnv where
  httpAccessLogDAOMapping : List HTTPAccessLogDAOWrapper
  SharedHTTPAccessLogDAO : HTTPAccessLogDAOWrapper
  serverIdsOfUser : Int → List Int
  serverLookupError : Option String
  nodeIdsOfCluster : Int → List Int
  nodeLookupError : Option String
  parseIP : String → Bool
  ipMatches : String → Bool → HTTPAccessLog → Bool
  domainMatches : String → Bool → HTTPAccessLog → Bool
  keywordMatches : String → Option String → Bool → HTTPAccessLog → Bool

/-- The `daoList` of the source: the registered nodes, or the default DAO alone when
none is registered. -/
def daoList (env : SearchEnv) : List HTTPAccessLogDAOWrapper :=
  if env.httpAccessLogDAOMapping.length = 0 then [env.SharedHTTPAccessLogDAO]
  else env.httpAccessLogDAOMapping

/-- The node condition of lines 323-346; `none` stands for the `return` statements that
leave the task without a query. -/
def nodeCondition (env : SearchEnv) (a : SearchArgs) : Option (HTTPAccessLog → Bool) :=
  if a.nodeId > 0 then some (fun r => decide (r.NodeId = a.nodeId))
  else if a.clusterId > 0 then
    match env.nodeLookupError with
    | some _ => none
    | none =>
      if (env.nodeIdsOfCluster a.clusterId).length > 0 then
        some (fun r => decide (r.NodeId ∈ env.nodeIdsOfCluster a.clusterId))
      else none
  else some (fun _ => true)

/-- The value that the cursor clause of lines 474-483 binds to the named parameter
`requestId`: the cursor, when there is one. -/
def cursorParam (lastRequestId : String) : Option String :=
  if lastRequestId.utf8ByteSize > 0 then some lastRequestId else none

/-- The conditions of lines 347-472, for a table with the given columns and for the
values that the variables of `a` hold when the task reaches these lines. -/
def otherConditions (env : SearchEnv) (a : SearchArgs) (serverIds : List Int) (t : DayTable)
    (r : HTTPAccessLog) : Bool :=
  (if a.serverId > 0 then decide (r.ServerId = a.serverId)
    else if a.userId > 0 ∧ serverIds.length > 0 then decide (r.ServerId ∈ serverIds)
    else true)
  && (if a.hasError then decide (r.Status ≥ 400) else true)
  && (if a.firewallPolicyId > 0 then decide (r.FirewallPolicyId = a.firewallPolicyId) else true)
  && (if a.firewallRuleGroupId > 0 then decide (r.FirewallRuleGroupId = a.firewallRuleGroupId)
      else true)
  && (if a.firewallRuleSetId > 0 then decide (r.FirewallRuleSetId = a.firewallRuleSetId)
      else true)
  && (if a.hasFirewallPolicy then decide (r.FirewallPolicyId > 0) else true)
  && (if a.ip.utf8ByteSize > 0 then env.ipMatches a.ip t.hasRemoteAddrField r else true)
  && (if a.domain.utf8ByteSize > 0 then env.domainMatches a.domain t.hasDomainField r else true)
  && (if a.keyword.utf8ByteSize > 0 then
        env.keywordMatches a.keyword (cursorParam a.lastRequestId) t.hasRemoteAddrField r
      else true)

/-- The `offset` condition of lines 474-483: the cursor is an exclusive bound, below
for a forward search and above for a backward one; an empty cursor is no bound. -/
def cursorCondition (lastRequestId : String) (reverse : Bool) (r : HTTPAccessLog) : Bool :=
  if lastRequestId.utf8ByteSize > 0 then
    if !reverse then decide (r.RequestId.toList < lastRequestId.toList)
    else decide (lastRequestId.toList < r.RequestId.toList)
  else true

/-- The comparison given to `sort.Slice` (lines 515-521), which is also the order of the
SQL query (lines 485-489). -/
def lessRequestId (reverse : Bool) (x y : HTTPAccessLog) : Bool :=
  if !reverse then decide (y.RequestId.toList < x.RequestId.toList)
  else decide (x.RequestId.toList < y.RequestId.toList)

/-- `sort.Slice(l, less)` and SQL `ORDER BY`: a sorted rearrangement of `l`. Neither is
stable, so the order among rows that compare equal is a choice of this model. -/
def sortSlice {α : Type} (less : α → α → Bool) (l : List α) : List α :=
  l.insertionSort (fun x y => less y x = false)

/-- `strings.Contains(domain, "*")` (line 393). -/
def containsStar (domain : String) : Bool :=
  domain.toList.any (fun c => decide (c.toNat = 42))

/-- The characters that the regular expression of line 395 leaves in place: the ASCII
letters and digits, `-`, `.` and `%`. -/
def isDomainPatternChar (c : Char) : Bool :=
  (decide (97 ≤ c.toNat) && decide (c.toNat ≤ 122))
    || (decide (65 ≤ c.toNat) && decide (c.toNat ≤ 90))
    || (decide (48 ≤ c.toNat) && decide (c.toNat ≤ 57))
    || decide (c.toNat = 45) || decide (c.toNat = 46) || decide (c.toNat = 37)

/-- Lines 394-395: every `*` becomes `%`, then every character outside the class of
`isDomainPatternChar` is removed. -/
def domainPattern (domain : String) : String :=
  String.mk ((domain.toList.map (fun c => if c.toNat = 42 then Char.ofNat 37 else c)).filter
    isDomainPatternChar)

/-- The regular expression `^ip:.+` of lines 411 and 420: the text begins with `ip:`
and one more character, which is not a line feed. -/
def matchesIpPrefix (keyword : String) : Bool :=
  match keyword.toList with
  | c0 :: c1 :: c2 :: c3 :: _ =>
    decide (c0.toNat = 105) && decide (c1.toNat = 112) && decide (c2.toNat = 58)
      && decide (c3.toNat ≠ 10)
  | _ => false

/-- The assignments of lines 391-472 to the variables `domain` (lines 394-395, for a
pattern with `*` on a table with the `domain` column) and `keyword` (lines 412 and
421, `keyword[3:]` for a keyword `ip:...` that line 409 does not take as an
address): the variables of the call after a task has built its conditions for the
table `t`. -/
def assignedTexts (env : SearchEnv) (a : SearchArgs) (t : DayTable) : SearchArgs :=
  { a with
    domain :=
      if a.domain.utf8ByteSize > 0 ∧ t.hasDomainField = true ∧ containsStar a.domain = true then
        domainPattern a.domain
      else a.domain
    keyword :=
      if a.keyword.utf8ByteSize > 0 then
        if t.hasRemoteAddrField = true ∧ env.parseIP a.keyword = true then a.keyword
        else if matchesIpPrefix a.keyword = true then String.mk (a.keyword.toList.drop 3)
        else a.keyword
      else a.keyword }

/-- The goroutine of lines 305-506 for one node, started with the variables `a`: the
rows it appends to `result`, and the variables as it leaves them. The variables
`domain` and `keyword` are those of `listAccessLogs`, captured by every goroutine;
a task that returns before line 391 leaves them as they are. -/
def shardTask (env : SearchEnv) (a : SearchArgs) (serverIds : List Int)
    (w : HTTPAccessLogDAOWrapper) : List HTTPAccessLog × SearchArgs :=
  match w.tableLookupError with
  | some _ => ([], a)
  | none =>
    match w.tables a.day with
    | none => ([], a)
    | some t =>
      match nodeCondition env a with
      | none => ([], a)
      | some nodeCond =>
        match w.queryError with
        | some _ => ([], assignedTexts env a t)
        | none =>
          ((sortSlice (lessRequestId a.reverse)
            (t.rows.filter (fun r => nodeCond r && otherConditions env a serverIds t r
              && cursorCondition a.lastRequestId a.reverse r))).take a.size.toNat,
           assignedTexts env a t)

/-- The loop of lines 304-508: the tasks of the nodes `ws`, each started with the
variables that the task before it left; the rows appended to `result`. -/
def shardTasks (env : SearchEnv) (serverIds : List Int) :
    SearchArgs → List HTTPAccessLogDAOWrapper → List HTTPAccessLog
  | _, [] => []
  | a, w :: ws =>
    (shardTask env a serverIds w).1 ++ shardTasks env serverIds (shardTask env a serverIds w).2 ws

/-- Lines 510-536 of `listAccessLogs`: what is returned once the node tasks have
appended their rows to `result`. -/
def mergeResults (a : SearchArgs) (result : List HTTPAccessLog) :
    List HTTPAccessLog × String × Option String :=
  if result.length = 0 then ([], a.lastRequestId, none)
  else
    let sorted := sortSlice (lessRequestId a.reverse) result
    let page := if (sorted.length : Int) > a.size then sorted.take a.size.toNat else sorted
    let requestId := match page.getLast? with
      | some r => r.RequestId
      | none => ""
    (if a.reverse then page.reverse else page, requestId, none)

/-- `listAccessLogs`: the page, the next cursor and the error. The node tasks are run
one after the other in the order of `daoList`, which stands for the order in which
the `range` of line 287 visits the registry. -/
def listAccessLogs (env : SearchEnv) (a : SearchArgs) :
    List HTTPAccessLog × String × Option String :=
  if a.size ≤ 0 then ([], a.lastRequestId, none)
  else
    match (if a.userId > 0 then env.serverLookupError else none) with
    | some err => ([], "", some err)
    | none =>
      let serverIds : List Int := if a.userId > 0 then env.serverIdsOfUser a.userId else []
      if a.userId > 0 ∧ serverIds.length = 0 then ([], "", none)
      else mergeResults a (shardTasks env serverIds a (daoList env))

/-- `ListAccessLogs`: the page, the next cursor, `hasMore` and the error. -/
def ListAccessLogs (env : SearchEnv) (a : SearchArgs) :
    List HTTPAccessLog × String × Bool × Option String :=
  if a.day.utf8ByteSize ≠ 8 then ([], "", false, none)
  else
    let size : Int := if a.size > 1000 then 1000 else a.size
    match listAccessLogs env { a with size := size } with
    | (result, nextLastRequestId, err) =>
      if err ≠ none ∨ (result.length : Int) < size then (result, nextLastRequestId, false, err)
      else
        let moreResult := (listAccessLogs env { a with lastRequestId := nextLastRequestId,
                                                        size := 1 }).1
        (result, nextLastRequestId, decide (moreResult.length > 0), err)

/-! ## Named parameters of the keyword and cursor clauses -/

/-- The part of a `dbs.Query` (package `github.com/iwind/TeaGo/dbs`) that the keyword
group and the cursor clause use: the conditions added with `Where`, in order, and
the named parameters with their values. -/
structure Query where
  wheres : List String
  params : List (String × String)
deriving DecidableEq, Repr

/-- `query.Where(cond)`. -/
def Query.Where (q : Query) (cond : String) : Query :=
  { q with wheres := q.wheres ++ [cond] }

/-- `query.Param(name, value)`. The query keeps its named parameters in a map from name
to value: the value is stored under the name and replaces the one stored under that
name before. -/
def Query.Param (q : Query) (name value : String) : Query :=
  { q with params := (name, value) :: q.params.filter (fun p => decide (p.1 ≠ name)) }

/-- The value that the placeholders `:name` of all conditions take when the query is
run. -/
def Query.paramValue (q : Query) (name : String) : Option String :=
  (q.params.find? (fun p => decide (p.1 = name))).map (fun p => p.2)

/-- The class `\s` of Go regular expressions: tab, line feed, form feed, carriage
return and space. -/
def isGoSpace (c : Char) : Bool :=
  decide (c.toNat = 9) || decide (c.toNat = 10) || decide (c.toNat = 12)
    || decide (c.toNat = 13) || decide (c.toNat = 32)

/-- The regular expression of line 461: 20 or more digits, then white space, then at
most one full stop, up to the end of the text. -/
def matchesLongNumber (keyword : String) : Bool :=
  decide (20 ≤ (keyword.toList.takeWhile Char.isDigit).length)
  && (((keyword.toList.dropWhile Char.isDigit).dropWhile isGoSpace).isEmpty
      || ((keyword.toList.dropWhile Char.isDigit).dropWhile isGoSpace).map Char.toNat == [46])

/-- `strings.TrimRight(keyword, ". ")`: the text without its trailing full stops and
spaces. -/
def trimRightDotSpace (s : String) : String :=
  String.mk (s.toList.reverse.dropWhile
    (fun c => decide (c.toNat = 46) || decide (c.toNat = 32))).reverse

/-- Lines 461-464: for a keyword that looks like a request id, the alternative
`requestId=:requestId` is appended to the text of the keyword group and the
parameter `requestId` is bound to the trimmed keyword. -/
def keywordRequestIdAlternative (keyword whereText : String) (q : Query) : String × Query :=
  if matchesLongNumber keyword then
    (whereText ++ " OR requestId=:requestId", q.Param "requestId" (trimRightDotSpace keyword))
  else (whereText, q)

/-- Lines 461-467: the end of the keyword group. `whereText` is the text of the group
built by lines 426-459, whose parameters have other names. -/
def keywordGroup (keyword whereText : String) (q : Query) : Query :=
  ((keywordRequestIdAlternative keyword whereText q).2.Where
      ("(" ++ (keywordRequestIdAlternative keyword whereText q).1 ++ ")")).Param
    "keyword" ("%" ++ keyword ++ "%")

/-- Lines 474-483: the cursor clause. -/
def offsetClause (lastRequestId : String) (reverse : Bool) (q : Query) : Query :=
  if lastRequestId.utf8ByteSize > 0 then
    if !reverse then (q.Where "requestId<:requestId").Param "requestId" lastRequestId
    else (q.Where "requestId>:requestId").Param "requestId" lastRequestId
  else q

/-- The keyword group followed by the cursor clause, on a query without conditions. -/
def keywordAndCursorQuery (keyword whereText lastRequestId : String) (reverse : Bool) : Query :=
  offsetClause lastRequestId reverse (keywordGroup keyword whereText ⟨[], []⟩)

/-! ## Lookup by request id -/

/-- The regular expression of line 541, a start anchor followed by eleven or more `\d`,
as `MatchString` applies it: the text begins with 11 characters `0` to `9`, and what
follows them is not looked at. -/
def matchesLeadingDigits (requestId : String) : Bool :=
  decide ((requestId.toList.take 11).length = 11) && (requestId.toList.take 11).all Char.isDigit

/-- `types.Int64` of a text of decimal digits. -/
def typesInt64 (s : String) : Int :=
  s.toList.foldl (fun n c => 10 * n + ((c.toNat : Int) - 48)) 0

/-- The day of line 563: `timeutil.FormatTime("Ymd", types.Int64(requestId[:10]))`, the
first 10 digits read as a Unix time in seconds. -/
def dayOfRequestId (lib : Lib) (requestId : String) : String :=
  lib.formatDay (typesInt64 (String.mk (requestId.toList.take 10)))

/-- What `FindAccessLogWithRequestId` reads: the node registry, the table name of a day
on a node, and a query on a node. -/
inductive ReadEvent where
  | readRegistry
  | findTableName (nodeId : Int) (day : String)
  | query (nodeId : Int) (day : String) (requestId : String)
deriving DecidableEq, Repr

/-- The row `one` that the task of lines 565-590 finds on a node, `none` when the task
returns before or the query finds nothing. -/
def findTaskOne (day requestId : String) (w : HTTPAccessLogDAOWrapper) : Option HTTPAccessLog :=
  match w.tableLookupError with
  | some _ => none
  | none =>
    match w.tables day with
    | none => none
    | some t =>
      match w.queryError with
      | some _ => none
      | none => t.rows.find? (fun r => decide (r.RequestId = requestId))

/-- What the task of lines 565-590 reads on a node. -/
def findTaskReads (day requestId : String) (w : HTTPAccessLogDAOWrapper) : List ReadEvent :=
  match w.tableLookupError with
  | some _ => [ReadEvent.findTableName w.NodeId day]
  | none =>
    match w.tables day with
    | none => [ReadEvent.findTableName w.NodeId day]
    | some _ => [ReadEvent.findTableName w.NodeId day, ReadEvent.query w.NodeId day requestId]

/-- The result of `FindAccessLogWithRequestId`, with what it read on the way. -/
structure FindResult where
  record : Option HTTPAccessLog
  err : Option String
  reads : List ReadEvent
deriving DecidableEq, Repr

/-- `FindAccessLogWithRequestId(tx, requestId)`. The node tasks are run one after the
other in the order of `daoList`; each task that finds a row assigns it to `result`. -/
def FindAccessLogWithRequestId (lib : Lib) (env : SearchEnv) (requestId : String) : FindResult :=
  if !matchesLeadingDigits requestId then ⟨none, some "invalid requestId", []⟩
  else
    let day := dayOfRequestId lib requestId
    let result := (daoList env).foldl (fun result w =>
      match findTaskOne day requestId w with
      | some one => some one
      | none => result) none
    ⟨result, none, ReadEvent.readRegistry :: (daoList env).flatMap (findTaskReads day requestId)⟩

/-! ## Vocabulary of the search properties -/

/-- The number of decimal digits that a text begins with. -/
def leadingDigits (s : String) : Nat :=
  (s.toList.takeWhile Char.isDigit).length


/-- The shards that a search covers by the words of the specification: every shard of
the registry, or the single fallback shard when the registry is empty. -/
def shardsOfRegistry (env : SearchEnv) : List HTTPAccessLogDAOWrapper :=
  match env.httpAccessLogDAOMapping with
  | [] => [env.SharedHTTPAccessLogDAO]
  | w :: ws => w :: ws

/-- All rows of the day's tables, over all shards. -/
def allRows (env : SearchEnv) (day : String) : List HTTPAccessLog :=
  (shardsOfRegistry env).flatMap (fun w => match w.tables day with
    | none => []
    | some t => t.rows)

/-- Whether a row of the table `t` satisfies the service, status, security-policy,
address, host and keyword filters of the search request as the caller gave it: the
host and the keyword are the texts of the request, and the keyword is matched as
its own conditions state it, a long number being compared with the request id. -/
def requestFilters (env : SearchEnv) (a : SearchArgs) (t : DayTable) (r : HTTPAccessLog) : Bool :=
  (if a.serverId > 0 then decide (r.ServerId = a.serverId)
    else if a.userId > 0 then decide (r.ServerId ∈ env.serverIdsOfUser a.userId)
    else true)
  && (if a.hasError then decide (r.Status ≥ 400) else true)
  && (if a.firewallPolicyId > 0 then decide (r.FirewallPolicyId = a.firewallPolicyId) else true)
  && (if a.firewallRuleGroupId > 0 then decide (r.FirewallRuleGroupId = a.firewallRuleGroupId)
      else true)
  && (if a.firewallRuleSetId > 0 then decide (r.FirewallRuleSetId = a.firewallRuleSetId)
      else true)
  && (if a.hasFirewallPolicy then decide (r.FirewallPolicyId > 0) else true)
  && (if a.ip ≠ "" then env.ipMatches a.ip t.hasRemoteAddrField r else true)
  && (if a.domain ≠ "" then env.domainMatches a.domain t.hasDomainField r else true)
  && (if a.keyword ≠ "" then env.keywordMatches a.keyword none t.hasRemoteAddrField r else true)

/-- Whether a row of the table `t` satisfies the filters of the search request, the
cursor apart. A cluster without nodes and a user without servers match nothing. -/
def matchesFilters (env : SearchEnv) (a : SearchArgs) (t : DayTable) (r : HTTPAccessLog) : Bool :=
  (if a.nodeId > 0 then decide (r.NodeId = a.nodeId)
    else if a.clusterId > 0 then decide (r.NodeId ∈ env.nodeIdsOfCluster a.clusterId)
    else true)
  && !(decide (a.userId > 0) && decide ((env.serverIdsOfUser a.userId).length = 0))
  && requestFilters env a t r

/-- The keyword predicate does not read the parameter that the cursor clause binds: it
matches the same rows whatever the cursor. -/
def keywordIgnoresCursor (env : SearchEnv) (keyword : String) : Prop :=
  ∀ (c : Option String) (hasRemoteAddrField : Bool) (r : HTTPAccessLog),
    env.keywordMatches keyword c hasRemoteAddrField r
      = env.keywordMatches keyword none hasRemoteAddrField r

/-- No task of the search assigns a new value to the variables `domain` and `keyword`
that the tasks share: whatever node it runs for, a task started with the variables
of the call leaves them as they are. -/
def sharedTextsKept (env : SearchEnv) (a : SearchArgs) : Bool :=
  (daoList env).all (fun w => decide ((shardTask env a [] w).2 = a))

/-- The same registry visited in another order: the `range` of line 287 runs over a
map, whose order of iteration is not fixed. -/
def reordered (env : SearchEnv) (ws : List HTTPAccessLogDAOWrapper) : SearchEnv :=
  { env with httpAccessLogDAOMapping := ws }

/-- The matching rows of one node's table of the day. -/
def matchingRows (env : SearchEnv) (a : SearchArgs) (w : HTTPAccessLogDAOWrapper) :
    List HTTPAccessLog :=
  match w.tables a.day with
  | none => []
  | some t => t.rows.filter (matchesFilters env a t)

/-- All matching rows of the day, over all shards. -/
def allMatchingRows (env : SearchEnv) (a : SearchArgs) : List HTTPAccessLog :=
  (shardsOfRegistry env).flatMap (matchingRows env a)

/-- A request id strictly beyond the cursor `c` in the scan direction: smaller for a
forward search, larger for a backward one. -/
def beyondCursor (c : String) (reverse : Bool) (r : HTTPAccessLog) : Bool :=
  if !reverse then decide (r.RequestId.toList < c.toList)
  else decide (c.toList < r.RequestId.toList)

/-- No lookup and no query of the search fails: every shard resolves its table and
answers its query, and the server and node lookups that the arguments
call for succeed. -/
def everyShardAnswers (env : SearchEnv) (a : SearchArgs) : Bool :=
  (shardsOfRegistry env).all (fun w => w.tableLookupError.isNone && w.queryError.isNone)
  && (decide (a.userId ≤ 0) || env.serverLookupError.isNone)
  && (decide (a.nodeId > 0) || decide (a.clusterId ≤ 0) || env.nodeLookupError.isNone)

/-- What one node contributes to a search: the first `size` of its matching rows beyond
the cursor, in the order of the search. -/
def shardPage (env : SearchEnv) (a : SearchArgs) (w : HTTPAccessLogDAOWrapper) :
    List HTTPAccessLog :=
  (sortSlice (lessRequestId a.reverse)
    ((matchingRows env a w).filter (cursorCondition a.lastRequestId a.reverse))).take a.size.toNat

/-- The first `size` rows of the sorted union of what the nodes contribute. -/
def mergedPage (env : SearchEnv) (a : SearchArgs) : List HTTPAccessLog :=
  (sortSlice (lessRequestId a.reverse) ((daoList env).flatMap (shardPage env a))).take a.size.toNat

/-- The forward page that follows the page of the search `a`: the same search from the
cursor that `a` returns. -/
def secondPage (env : SearchEnv) (a : SearchArgs) : List HTTPAccessLog :=
  (listAccessLogs env { a with lastRequestId := (listAccessLogs env a).2.1 }).1

/-- The cursor returned with `secondPage`. -/
def secondCursor (env : SearchEnv) (a : SearchArgs) : String :=
  (listAccessLogs env { a with lastRequestId := (listAccessLogs env a).2.1 }).2.1

/-- The page of the backward search from `secondCursor`, with the page size of `a`. -/
def backwardFromSecondCursor (env : SearchEnv) (a : SearchArgs) : List HTTPAccessLog :=
  (listAccessLogs env { a with lastRequestId := secondCursor env a, reverse := true }).1

/-- A list of rows sorted by request id, largest first. -/
def sortDesc {α κ : Type} [LinearOrder κ] (key : α → κ) (l : List α) : List α :=
  l.insertionSort (fun x y => key y ≤ key x)

/-- The page that the words of the specification describe for a forward search: of all
matching rows of all nodes whose request id is strictly below the cursor (all
matching rows when the cursor is empty), the `k` with the largest request ids, or
all of them when fewer exist, largest first. -/
def largestBelowCursor (env : SearchEnv) (a : SearchArgs) (k : Nat) : List HTTPAccessLog :=
  (sortDesc (fun r => r.RequestId.toList)
    ((allMatchingRows env a).filter
      (fun r => a.lastRequestId = "" || beyondCursor a.lastRequestId false r))).take k

/-! ## Sample data -/

/-- A log record with the given request id and security-policy id. -/
def sampleLog (requestId : String) (firewallPolicyId : Int) : pb.HTTPAccessLog where
  RequestId := requestId
  ServerId := 1
  NodeId := 1
  Status := 200
  Timestamp := 1705312800
  FirewallPolicyId := firewallPolicyId
  FirewallRuleGroupId := 0
  FirewallRuleSetId := 0
  FirewallRuleId := 0
  RequestBody := []
  RemoteAddr := "192.0.2.1"
  Host := "example.com"

/-- A settings decoder for two blobs: `small` asks for 5 slots, `large` for 7. -/
def sampleUnmarshal (blob : String) : Except String AccessLogQueueConfig :=
  if blob = "small" then .ok ⟨5, 10000, 100⟩
  else if blob = "large" then .ok ⟨7, 10000, 100⟩
  else .error "invalid character"

/-- A database that is the list of the inserted rows, on which every call succeeds. -/
def sampleDAO : HTTPAccessLogDAO (List (String × Fields)) where
  findHTTPAccessLogTable := fun w day _ => (.ok ⟨"edgeHTTPAccessLogs_" ++ day, true, true⟩, w)
  Insert := fun w table fields => (none, w ++ [(table, fields)])

/-- Library calls that yield the day `20240115` and serialise a record as its id. -/
def sampleLib : Lib where
  formatDay := fun _ => "20240115"
  jsonMarshal := fun a => .ok a.RequestId

/-- The initial variables with a queue of two slots, one of them taken. -/
def sampleFullPercent : QueueState :=
  { QueueState.init with accessLogQueue := ⟨2, [sampleLog "a" 0]⟩ }

/-- Two generations: the old one still holds `a` and `b`, the current one holds `c`. -/
def sampleTwoGenerations : QueueState :=
  { QueueState.init with
      oldAccessLogQueue := ⟨5, [sampleLog "a" 0, sampleLog "b" 0]⟩
      accessLogQueue := ⟨7, [sampleLog "c" 0]⟩ }

/-- The variables after one record was enqueued in the initial state and a first
settings change (5 slots) retired its queue to the old generation. -/
def sampleFirstChange : QueueState :=
  SetupQueue (.ok "small") sampleUnmarshal
    (CreateHTTPAccessLogs (fun _ => 1) QueueState.init [sampleLog "a" 0]).2

/-- A stored row with the given request id. -/
def sampleRow (requestId : String) : HTTPAccessLog where
  ServerId := 1
  NodeId := 1
  Status := 200
  CreatedAt := 1705312800
  Content := ""
  RequestId := requestId
  FirewallPolicyId := 0
  FirewallRuleGroupId := 0
  FirewallRuleSetId := 0
  FirewallRuleId := 0
  RemoteAddr := "192.0.2.1"
  Domain := "example.com"

/-- A node whose table of day `20240115` holds rows with the given request ids and which
has no table for any other day. -/
def sampleShard (requestIds : List String) : HTTPAccessLogDAOWrapper where
  NodeId := 1
  tables := fun day => if day = "20240115" then some ⟨true, true, requestIds.map sampleRow⟩ else none
  tableLookupError := none
  queryError := none

/-- A registry of the given nodes, with lookups that succeed and find nothing. -/
def sampleEnv (shards : List HTTPAccessLogDAOWrapper) : SearchEnv where
  httpAccessLogDAOMapping := shards
  SharedHTTPAccessLogDAO := sampleShard []
  serverIdsOfUser := fun _ => []
  serverLookupError := none
  nodeIdsOfCluster := fun _ => []
  nodeLookupError := none
  parseIP := fun _ => false
  ipMatches := fun _ _ _ => true
  domainMatches := fun _ _ _ => true
  keywordMatches := fun _ _ _ _ => true

/-- A search of day `20240115` without filters. -/
def sampleArgs (lastRequestId : String) (size : Int) (reverse : Bool) : SearchArgs where
  lastRequestId := lastRequestId
  size := size
  day := "20240115"
  clusterId := 0
  nodeId := 0
  serverId := 0
  reverse := reverse
  hasError := false
  firewallPolicyId := 0
  firewallRuleGroupId := 0
  firewallRuleSetId := 0
  hasFirewallPolicy := false
  userId := 0
  keyword := ""
  ip := ""
  domain := ""

/-- The scenario of the specification: shard A holds ids `...01` and `...03`, shard B
holds `...02`. -/
def scenarioEnv : SearchEnv :=
  sampleEnv [sampleShard ["2024011510000001", "2024011510000003"],
             sampleShard ["2024011510000002"]]

/-- One node holding the five request ids `...01` to `...05`. -/
def fiveRowsEnv : SearchEnv :=
  sampleEnv [sampleShard ["2024011510000001", "2024011510000002", "2024011510000003",
                          "2024011510000004", "2024011510000005"]]

/-- The decimal digits of `n`, on `width` places. -/
def digitsOf (width n : Nat) : List Char :=
  (List.range width).reverse.map (fun i => Char.ofNat (48 + n / 10 ^ i % 10))

/-- The calendar day `YYYYMMDD` of a Unix time, in UTC. -/
def ymdUTC (timestamp : Int) : String :=
  let days := Int.ediv timestamp 86400
  let z := days + 719468
  let era := Int.ediv z 146097
  let doe := (z - era * 146097).toNat
  let yoe := (doe - doe / 1460 + doe / 36524 - doe / 146096) / 365
  let y := (yoe : Int) + era * 400
  let doy := doe - (365 * yoe + yoe / 4 - yoe / 100)
  let mp := (5 * doy + 2) / 153
  let d := doy - (153 * mp + 2) / 5 + 1
  let m := if mp < 10 then mp + 3 else mp - 9
  let year := if m ≤ 2 then y + 1 else y
  String.mk (digitsOf 4 year.toNat ++ digitsOf 2 m ++ digitsOf 2 d)

/-- Library calls of a process whose time zone is UTC. -/
def utcLib : Lib where
  formatDay := ymdUTC
  jsonMarshal := fun a => .ok a.RequestId

/-- Two nodes whose tables of day `20240115` hold request ids that begin with the Unix
time 1705312800 (15 January 2024, 10:00 UTC). -/
def timestampIdEnv : SearchEnv :=
  sampleEnv [sampleShard ["17053128000000001", "17053128000000003"],
             sampleShard ["17053128000000002"]]

/-- A settings decoder for the blob `default`, which leaves `maxLength` at 0 and asks
for 50 percent and 5000 records per second. -/
def sampleUnmarshalDefault (blob : String) : Except String AccessLogQueueConfig :=
  if blob = "default" then .ok ⟨0, 5000, 50⟩ else .error "invalid character"

/-- A node that holds one row in a table registered under the day text `2024011x`. -/
def oddDayShard : HTTPAccessLogDAOWrapper where
  NodeId := 1
  tables := fun day => if day = "2024011x" then some ⟨true, true, [sampleRow "1"]⟩ else none
  tableLookupError := none
  queryError := none

/-- A database node on which resolving the table fails; the state counts the inserts. -/
def brokenLookupDAO : HTTPAccessLogDAO Nat where
  findHTTPAccessLogTable := fun w _ _ => (.error "dial tcp: connection refused", w)
  Insert := fun w _ _ => (none, w + 1)

/-- A database node on which every insert fails with a duplicate-key error; the state
counts the inserts. -/
def duplicateKeyDAO : HTTPAccessLogDAO Nat where
  findHTTPAccessLogTable := fun w day _ => (.ok ⟨"edgeHTTPAccessLogs_" ++ day, true, true⟩, w)
  Insert := fun w _ _ => (some "Error 1062: Duplicate entry", w + 1)

/-- A database node whose table does not exist until `findHTTPAccessLogTable` is called
with `force = true`; the state is whether the table exists and the number of
inserts tried. -/
def missingTableDAO : HTTPAccessLogDAO (Bool × Nat) where
  findHTTPAccessLogTable := fun w day force =>
    (.ok ⟨"edgeHTTPAccessLogs_" ++ day, true, true⟩, (w.1 || force, w.2))
  Insert := fun w _ _ =>
    if w.1 then (none, (w.1, w.2 + 1))
    else (some "Error 1146: Table does not exist", (w.1, w.2 + 1))

/-- The operator `LIKE` of the database for a pattern in which `%` stands for any text
and every other character for itself. -/
def likeMatches : List Char → List Char → Bool
  | [], s => s.isEmpty
  | p :: ps, s =>
    if p.toNat = 37 then s.tails.any (likeMatches ps)
    else
      match s with
      | [] => false
      | c :: cs => decide (c = p) && likeMatches ps cs

/-- The host conditions of lines 391-406 as a database evaluates them on a row whose
content names the host of its `domain` column: `domain LIKE :host2` with the pattern
of lines 394-395 for a text with `*` on a table with the column, equality with the
text otherwise. -/
def sampleDomainMatches (domain : String) (hasDomainField : Bool) (r : HTTPAccessLog) : Bool :=
  if hasDomainField && containsStar domain then
    likeMatches (domainPattern domain).toList r.Domain.toList
  else decide (r.Domain = domain)

/-- The keyword group of lines 424-467 as a database evaluates it on a row whose
content holds nothing that the keyword matches: only the alternative
`requestId=:requestId` of lines 461-464 can hold, for the value that the parameter
`requestId` has when the query runs with the cursor clause of `cursor`. -/
def sampleKeywordMatches (keyword : String) (cursor : Option String) (_hasRemoteAddrField : Bool)
    (r : HTTPAccessLog) : Bool :=
  matchesLongNumber keyword
    && decide ((keywordAndCursorQuery keyword "" (cursor.getD "") false).paramValue "requestId"
        = some r.RequestId)

/-- A stored row with the given request id and host. -/
def hostRow (requestId domain : String) : HTTPAccessLog :=
  { sampleRow requestId with Domain := domain }

/-- A node whose table of day `20240115` holds the given rows. -/
def hostShard (rows : List HTTPAccessLog) : HTTPAccessLogDAOWrapper where
  NodeId := 1
  tables := fun day => if day = "20240115" then some ⟨true, true, rows⟩ else none
  tableLookupError := none
  queryError := none

/-- A registry of the given nodes on a database that evaluates the host and keyword
conditions by `sampleDomainMatches` and `sampleKeywordMatches`. -/
def textEnv (shards : List HTTPAccessLogDAOWrapper) : SearchEnv :=
  { sampleEnv shards with
    domainMatches := sampleDomainMatches
    keywordMatches := sampleKeywordMatches }

/-- One node that holds the rows `...01`, `...02` and `...03` with request ids of 20
digits. -/
def longIdEnv : SearchEnv :=
  textEnv [sampleShard ["20240115100000000001", "20240115100000000002",
                        "20240115100000000003"]]

/-- A forward search of size 2 for the keyword `20240115100000000002` from the cursor
`20240115100000000009`. -/
def longIdArgs : SearchArgs :=
  { sampleArgs "20240115100000000009" 2 false with keyword := "20240115100000000002" }

/-- Two nodes: the first holds the row `...03` of the host `a.example.com`, the second
the row `...02` of the host `b.example.com`. -/
def twoHostsEnv : SearchEnv :=
  textEnv [hostShard [hostRow "2024011510000003" "a.example.com"],
           hostShard [hostRow "2024011510000002" "b.example.com"]]

/-- A forward search of size 2 for the hosts `*.example.com`, without a cursor. -/
def wildcardArgs : SearchArgs :=
  { sampleArgs "" 2 false with domain := "*.example.com" }

/-- Two nodes: the first holds the rows `...01` and `...03` of the host `a.example.com`,
the second the row `...02` of that host and the row `...04` of `b.example.com`. -/
def hostFilterEnv : SearchEnv :=
  textEnv [hostShard [hostRow "2024011510000001" "a.example.com",
                      hostRow "2024011510000003" "a.example.com"],
           hostShard [hostRow "2024011510000002" "a.example.com",
                      hostRow "2024011510000004" "b.example.com"]]

/-- A forward search of size 2 for the host `a.example.com`, without a cursor. -/
def hostFilterArgs : SearchArgs :=
  { sampleArgs "" 2 false with domain := "a.example.com" }

/-- The request ids `2024011510000000` to `2024011510001000`, largest first. -/
def manyRequestIds : List String :=
  (List.range 1001).reverse.map (fun n => String.mk ("2024011510".toList ++ digitsOf 6 n))

/-- One node that holds 1001 rows, with the request ids of `manyRequestIds`. -/
def manyRowsEnv : SearchEnv :=
  sampleEnv [sampleShard manyRequestIds]

/-! ## Theorems: ingestion queue -/

theorem CreateHTTPAccessLogs.loop_percent_100 (rand : Nat → Int) (batch : List pb.HTTPAccessLog) :
    ∀ (n : Nat) (q : Chan pb.HTTPAccessLog),
      CreateHTTPAccessLogs.loop 100 rand n q batch
        = ⟨q.cap, q.buf ++ batch.take (q.cap - q.buf.length)⟩ := by
  induction batch with
  | nil => intro n q; simp [CreateHTTPAccessLogs.loop]
  | cons a rest ih =>
    intro n q
    have step : CreateHTTPAccessLogs.loop 100 rand n q (a :: rest)
        = CreateHTTPAccessLogs.loop 100 rand n (q.trySend a) rest := by
      by_cases h : a.FirewallPolicyId = 0 <;> simp [CreateHTTPAccessLogs.loop, h]
    rw [step, ih]
    by_cases hfree : q.buf.length < q.cap
    · have hsub : q.cap - q.buf.length = (q.cap - (q.buf.length + 1)) + 1 := by omega
      simp [Chan.trySend, hfree, hsub]
    · have hsub : q.cap - q.buf.length = 0 := by omega
      simp [Chan.trySend, hfree, hsub]

/-- C1 (code at the failing input). With sampling percentage 0 and a free queue, a
batch of an untagged record followed by a record with `FirewallPolicyId = 7` leaves
the queue empty: the `return nil` taken for the first record ends the loop, so the
tagged record behind it is never offered. -/
theorem tagged_record_after_sampled_out_not_offered :
    (sampleLog "b" 7).FirewallPolicyId ≠ 0 ∧
    (CreateHTTPAccessLogs (fun _ => 1) { QueueState.init with accessLogQueuePercent := 0 }
      [sampleLog "a" 0, sampleLog "b" 7]).2.accessLogQueue = ⟨10000, []⟩ := by
  decide

/-- C2 (code at the failing input). With sampling percentage 50, draw 80 for the first
untagged record and draw 10 for the second, nothing is enqueued: the second record
is not offered although its own draw is at most 50, because the first record's draw
ended the loop. -/
theorem admitted_draw_after_rejected_draw_not_offered :
    (CreateHTTPAccessLogs (fun n => if n = 0 then 80 else 10)
      { QueueState.init with accessLogQueuePercent := 50 }
      [sampleLog "a" 0, sampleLog "b" 0]).2.accessLogQueue = ⟨10000, []⟩ := by
  decide

/-- C3. With sampling percentage 100, a queue of capacity `c` holding `k ≤ c` records
and any batch, `CreateHTTPAccessLogs` returns `nil` and the queue then holds its
previous records followed by the first `min n (c - k)` records of the batch, in
order; its length stays within `c` and nothing else changes. -/
theorem create_at_full_percent_fills_free_slots (rand : Nat → Int) (s : QueueState)
    (batch : List pb.HTTPAccessLog) (hp : s.accessLogQueuePercent = 100)
    (hk : s.accessLogQueue.buf.length ≤ s.accessLogQueue.cap) :
    CreateHTTPAccessLogs rand s batch =
      (none, { s with accessLogQueue := ⟨s.accessLogQueue.cap, s.accessLogQueue.buf ++
        batch.take (min batch.length (s.accessLogQueue.cap - s.accessLogQueue.buf.length))⟩ })
    ∧ (CreateHTTPAccessLogs rand s batch).2.accessLogQueue.buf.length ≤ s.accessLogQueue.cap := by
  have hmin : batch.take (min batch.length (s.accessLogQueue.cap - s.accessLogQueue.buf.length))
      = batch.take (s.accessLogQueue.cap - s.accessLogQueue.buf.length) := by
    rw [Nat.min_comm, ← List.take_take, List.take_length]
  have hrun : CreateHTTPAccessLogs rand s batch =
      (none, { s with accessLogQueue := ⟨s.accessLogQueue.cap, s.accessLogQueue.buf ++
        batch.take (s.accessLogQueue.cap - s.accessLogQueue.buf.length)⟩ }) := by
    simp [CreateHTTPAccessLogs, hp, CreateHTTPAccessLogs.loop_percent_100]
  refine ⟨by rw [hmin]; exact hrun, ?_⟩
  rw [hrun]
  simp only [List.length_append, List.length_take]
  omega

theorem create_at_full_percent_fills_free_slots_witness :
    sampleFullPercent.accessLogQueuePercent = 100 ∧
    sampleFullPercent.accessLogQueue.buf.length ≤ sampleFullPercent.accessLogQueue.cap ∧
    (CreateHTTPAccessLogs (fun _ => 1) sampleFullPercent
        [sampleLog "b" 0, sampleLog "c" 7, sampleLog "d" 0]).2.accessLogQueue
      = ⟨2, [sampleLog "a" 0, sampleLog "b" 0]⟩ :=
  ⟨by decide, by decide, by
    rw [(create_at_full_percent_fills_free_slots (fun _ => 1) sampleFullPercent
      [sampleLog "b" 0, sampleLog "c" 7, sampleLog "d" 0] (by decide) (by decide)).1]
    decide⟩

/-- The `make` of line 629 returns whenever the runtime allocates 100000 slots and as
many as the settings ask for. -/
theorem SetupQueue.makePanics_eq_false (maxChanLen : Int) (readSetting : Except String String)
    (unmarshal : String → Except String AccessLogQueueConfig) (s : QueueState)
    (hdefault : 100000 ≤ maxChanLen)
    (hasked : ∀ blob config, unmarshal blob = .ok config → config.MaxLength ≤ maxChanLen) :
    SetupQueue.makePanics maxChanLen readSetting unmarshal s = false := by
  unfold SetupQueue.makePanics
  cases readSetting with
  | error e => rfl
  | ok configJSON =>
    dsimp only
    by_cases h0 : configJSON.utf8ByteSize = 0
    · rw [if_pos h0]
    · rw [if_neg h0]
      by_cases h1 : s.accessLogConfigJSON = configJSON
      · rw [if_pos h1]
      · rw [if_neg h1]
        cases hu : unmarshal configJSON with
        | error e => rfl
        | ok config =>
          have hle := hasked configJSON config hu
          have hnot : ¬ maxChanLen < (if config.MaxLength ≤ 0 then 100000 else config.MaxLength) := by
            split <;> omega
          simp [hnot]

/-- C4 (code at the failing input). Starting from the initial variables, one record is
enqueued, a first settings change retires its queue to `oldAccessLogQueue`, and a
second change arrives before any drain: the record is held before the second call
and in neither queue after it. -/
theorem second_capacity_change_loses_old_generation :
    sampleLog "a" 0 ∈ sampleFirstChange.oldAccessLogQueue.buf ∧
    sampleFirstChange.accessLogQueueMaxLength
      ≠ (SetupQueue (.ok "large") sampleUnmarshal sampleFirstChange).accessLogQueueMaxLength ∧
    (SetupQueue (.ok "large") sampleUnmarshal sampleFirstChange).oldAccessLogQueue.buf = [] ∧
    (SetupQueue (.ok "large") sampleUnmarshal sampleFirstChange).accessLogQueue.buf = [] := by
  decide

theorem DumpAccessLogsFromQueue.loop_all_persisted {W : Type} (lib : Lib)
    (dao : HTTPAccessLogDAO W) (hok : ∀ w a, (CreateHTTPAccessLog lib dao w a).1 = none) :
    ∀ (n : Nat) (oldQueue newQueue : Chan pb.HTTPAccessLog) (w : W),
      DumpAccessLogsFromQueue.loop lib dao n oldQueue newQueue w =
        (none, ⟨oldQueue.cap, oldQueue.buf.drop n⟩,
          ⟨newQueue.cap, newQueue.buf.drop (n - oldQueue.buf.length)⟩,
          ((oldQueue.buf ++ newQueue.buf).take n).foldl
            (fun w1 a => (CreateHTTPAccessLog lib dao w1 a).2) w) := by
  intro n
  induction n with
  | zero => intro oldQueue newQueue w; simp [DumpAccessLogsFromQueue.loop]
  | succ n ih =>
    intro oldQueue newQueue w
    obtain ⟨oc, ob⟩ := oldQueue
    obtain ⟨nc, nb⟩ := newQueue
    cases ob with
    | cons a rest =>
      have hc : CreateHTTPAccessLog lib dao w a = (none, (CreateHTTPAccessLog lib dao w a).2) :=
        Prod.ext (hok w a) rfl
      simp only [DumpAccessLogsFromQueue.loop, Chan.tryRecv]
      rw [hc]
      simp [ih]
    | nil =>
      cases nb with
      | cons b rest =>
        have hc : CreateHTTPAccessLog lib dao w b = (none, (CreateHTTPAccessLog lib dao w b).2) :=
          Prod.ext (hok w b) rfl
        simp only [DumpAccessLogsFromQueue.loop, Chan.tryRecv]
        rw [hc]
        simp [ih]
      | nil => simp [DumpAccessLogsFromQueue.loop, Chan.tryRecv]

/-- C5. When `CreateHTTPAccessLog` never returns an error, `DumpAccessLogsFromQueue(size)`
with limit `L = size` if `size > 0` and `L = 1000000` otherwise returns `nil`, hands
to `CreateHTTPAccessLog` exactly the first `min L (|old| + |current|)` records of
`old ++ current` in that order, and leaves the other records in their queues in
order (so the current generation is untouched until the old one is empty); with
both generations empty nothing changes. -/
theorem dump_persists_old_generation_first {W : Type} (lib : Lib)
    (randomDAO : Option (HTTPAccessLogDAO W)) (sharedDAO : HTTPAccessLogDAO W)
    (s : QueueState) (size : Int) (w : W)
    (hok : ∀ w1 a, (CreateHTTPAccessLog lib (randomDAO.getD sharedDAO) w1 a).1 = none) :
    let L : Nat := if size > 0 then size.toNat else 1000000
    let all := s.oldAccessLogQueue.buf ++ s.accessLogQueue.buf
    DumpAccessLogsFromQueue lib randomDAO sharedDAO s size w =
      (none,
       { s with
          oldAccessLogQueue := ⟨s.oldAccessLogQueue.cap, s.oldAccessLogQueue.buf.drop L⟩
          accessLogQueue := ⟨s.accessLogQueue.cap,
            s.accessLogQueue.buf.drop (L - s.oldAccessLogQueue.buf.length)⟩ },
       (all.take (min L all.length)).foldl
          (fun w1 a => (CreateHTTPAccessLog lib (randomDAO.getD sharedDAO) w1 a).2) w)
    ∧ (all = [] → DumpAccessLogsFromQueue lib randomDAO sharedDAO s size w = (none, s, w)) := by
  intro L all
  have hL : (if size ≤ 0 then (1000000 : Int) else size).toNat = L := by
    by_cases h : size ≤ 0
    · have h2 : ¬ size > 0 := by omega
      simp [L, h, h2]
    · have h2 : size > 0 := by omega
      simp [L, h, h2]
  have htake : all.take (min L all.length) = all.take L := by
    rw [← List.take_take, List.take_length]
  have hrun : DumpAccessLogsFromQueue lib randomDAO sharedDAO s size w =
      (none,
       { s with
          oldAccessLogQueue := ⟨s.oldAccessLogQueue.cap, s.oldAccessLogQueue.buf.drop L⟩
          accessLogQueue := ⟨s.accessLogQueue.cap,
            s.accessLogQueue.buf.drop (L - s.oldAccessLogQueue.buf.length)⟩ },
       (all.take L).foldl
          (fun w1 a => (CreateHTTPAccessLog lib (randomDAO.getD sharedDAO) w1 a).2) w) := by
    simp only [DumpAccessLogsFromQueue]
    rw [hL, DumpAccessLogsFromQueue.loop_all_persisted lib _ hok]
  refine ⟨by rw [htake]; exact hrun, ?_⟩
  intro hall
  have ho : s.oldAccessLogQueue.buf = [] := (List.append_eq_nil.mp hall).1
  have hn : s.accessLogQueue.buf = [] := (List.append_eq_nil.mp hall).2
  rw [hrun, hall]
  obtain ⟨⟨oc, ob⟩, ⟨nc, nb⟩, m, p, c, j⟩ := s
  simp only at ho hn
  subst ho hn
  simp

theorem dump_persists_old_generation_first_witness :
    (∀ w1 a, (CreateHTTPAccessLog sampleLib
      ((none : Option (HTTPAccessLogDAO (List (String × Fields)))).getD sampleDAO) w1 a).1 = none) ∧
    (DumpAccessLogsFromQueue sampleLib none sampleDAO sampleTwoGenerations 1 []).2.1.oldAccessLogQueue.buf
      = [sampleLog "b" 0] ∧
    (DumpAccessLogsFromQueue sampleLib none sampleDAO sampleTwoGenerations 1 []).2.1.accessLogQueue.buf
      = [sampleLog "c" 0] ∧
    ((DumpAccessLogsFromQueue sampleLib none sampleDAO sampleTwoGenerations 1 []).2.2.map
      (fun row => row.2.requestId)) = ["a"] := by
  have hok : ∀ w1 a, (CreateHTTPAccessLog sampleLib
      ((none : Option (HTTPAccessLogDAO (List (String × Fields)))).getD sampleDAO) w1 a).1 = none := by
    intro w1 a
    simp [CreateHTTPAccessLog, sampleLib, sampleDAO]
  have h := (dump_persists_old_generation_first sampleLib none sampleDAO sampleTwoGenerations 1 []
    hok).1
  refine ⟨hok, ?_, ?_, ?_⟩ <;> rw [h] <;> decide

/-! ## Lemmas: sorting and keeping the first `k` -/

section TopK
variable {α β κ : Type} [LinearOrder κ] (key : α → κ)

theorem sortDesc_sorted (l : List α) : (sortDesc key l).Sorted (fun x y => key y ≤ key x) := by
  haveI : IsTotal α (fun x y => key y ≤ key x) := ⟨fun x y => le_total (key y) (key x)⟩
  haveI : IsTrans α (fun x y => key y ≤ key x) := ⟨fun _ _ _ h1 h2 => le_trans h2 h1⟩
  exact List.sorted_insertionSort _ l

theorem sortDesc_perm (l : List α) : (sortDesc key l).Perm l :=
  List.perm_insertionSort _ l

theorem take_orderedInsert (r : α → α → Prop) [DecidableRel r] (x : α) (k : Nat) (l : List α) :
    (List.orderedInsert r x l).take k = (List.orderedInsert r x (l.take k)).take k := by
  induction l generalizing k with
  | nil => simp
  | cons y l ih =>
    cases k with
    | zero => simp
    | succ k =>
      by_cases h : r x y
      · simp only [List.orderedInsert, h, if_true, List.take_succ_cons]
        cases k with
        | zero => simp
        | succ j => simp [List.take_take]
      · simp only [List.orderedInsert, h, if_false, List.take_succ_cons]
        rw [ih k]

theorem take_foldr_orderedInsert (r : α → α → Prop) [DecidableRel r] (k : Nat) (ys xs : List α) :
    (xs.foldr (List.orderedInsert r) ys).take k
      = (xs.foldr (List.orderedInsert r) (ys.take k)).take k := by
  induction xs with
  | nil => simp [List.take_take]
  | cons x xs ih =>
    simp only [List.foldr_cons]
    rw [take_orderedInsert r x k, ih, ← take_orderedInsert r x k]

theorem insertionSort_append (r : α → α → Prop) [DecidableRel r] (xs ys : List α) :
    (xs ++ ys).insertionSort r = xs.foldr (List.orderedInsert r) (ys.insertionSort r) := by
  induction xs with
  | nil => simp
  | cons x xs ih => simp [List.insertionSort, ih]

theorem insertionSort_congr (r r2 : α → α → Prop) [DecidableRel r] [DecidableRel r2]
    (h : ∀ x y, r x y ↔ r2 x y) (l : List α) : l.insertionSort r = l.insertionSort r2 := by
  have hins : ∀ (x : α) (m : List α), List.orderedInsert r x m = List.orderedInsert r2 x m := by
    intro x m
    induction m with
    | nil => rfl
    | cons y m ih => simp only [List.orderedInsert, h x y, ih]
  induction l with
  | nil => rfl
  | cons x l ih => simp only [List.insertionSort, ih, hins]

/-- Only the first `k` rows of the sorted right part matter for the first `k` rows of
the whole. -/
theorem take_sortDesc_append_right (k : Nat) (xs ys : List α) :
    (sortDesc key (xs ++ ys)).take k = (sortDesc key (xs ++ (sortDesc key ys).take k)).take k := by
  have hs : sortDesc key ((sortDesc key ys).take k) = (sortDesc key ys).take k :=
    List.Sorted.insertionSort_eq ((sortDesc_sorted key ys).sublist (List.take_sublist _ _))
  unfold sortDesc at hs ⊢
  rw [insertionSort_append, insertionSort_append, hs, take_foldr_orderedInsert]

theorem sortDesc_pairwise_lt {l : List α} (hn : (l.map key).Nodup) :
    (sortDesc key l).Pairwise (fun x y => key y < key x) := by
  have hs := sortDesc_sorted key l
  have hn2 : ((sortDesc key l).map key).Nodup := ((sortDesc_perm key l).map key).nodup_iff.mpr hn
  have hn3 : (sortDesc key l).Pairwise (fun x y => key x ≠ key y) := List.pairwise_map.mp hn2
  exact (hs.and hn3).imp (fun h => lt_of_le_of_ne h.1 (Ne.symm h.2))

/-- With distinct keys the sorted list does not depend on the order of the input. -/
theorem sortDesc_eq_of_perm {l₁ l₂ : List α} (hp : l₁.Perm l₂) (hn : (l₁.map key).Nodup) :
    sortDesc key l₁ = sortDesc key l₂ := by
  have hn2 : (l₂.map key).Nodup := (hp.map key).nodup_iff.mp hn
  haveI : IsAntisymm α (fun x y => key y < key x) :=
    ⟨fun _ _ h1 h2 => absurd h1 (not_lt_of_gt h2)⟩
  exact List.eq_of_perm_of_sorted
    (((sortDesc_perm key l₁).trans hp).trans (sortDesc_perm key l₂).symm)
    (sortDesc_pairwise_lt key hn) (sortDesc_pairwise_lt key hn2)

theorem nodup_keys_append_take {k : Nat} {xs ys : List α} (hn : ((xs ++ ys).map key).Nodup) :
    ((xs ++ (sortDesc key ys).take k).map key).Nodup := by
  have h1 : ((xs ++ sortDesc key ys).map key).Nodup :=
    (((sortDesc_perm key ys).append_left xs).map key).nodup_iff.mpr hn
  have h2 : (xs ++ (sortDesc key ys).take k).Sublist (xs ++ sortDesc key ys) :=
    (List.Sublist.refl xs).append (List.take_sublist _ _)
  exact h1.sublist (h2.map key)

theorem take_sortDesc_append_left (k : Nat) (xs ys : List α) (hn : ((xs ++ ys).map key).Nodup) :
    (sortDesc key (xs ++ ys)).take k = (sortDesc key ((sortDesc key xs).take k ++ ys)).take k := by
  have hn2 : ((ys ++ xs).map key).Nodup := (List.perm_append_comm.map key).nodup_iff.mp hn
  rw [sortDesc_eq_of_perm key (List.perm_append_comm : (xs ++ ys).Perm (ys ++ xs)) hn,
    take_sortDesc_append_right key k ys xs,
    sortDesc_eq_of_perm key (List.perm_append_comm :
      (ys ++ (sortDesc key xs).take k).Perm ((sortDesc key xs).take k ++ ys))
      (nodup_keys_append_take key hn2)]

/-- Merging the first `k` rows of each sorted part gives the first `k` rows of the
sorted whole, when the keys are distinct. -/
theorem take_sortDesc_flatMap (k : Nat) (f : β → List α) (ws : List β)
    (hn : ((ws.flatMap f).map key).Nodup) :
    (sortDesc key (ws.flatMap (fun w => (sortDesc key (f w)).take k))).take k
      = (sortDesc key (ws.flatMap f)).take k := by
  induction ws with
  | nil => simp
  | cons w ws ih =>
    simp only [List.flatMap_cons] at hn ⊢
    have hn2 : ((ws.flatMap f).map key).Nodup := by
      rw [List.map_append] at hn
      exact (List.nodup_append.mp hn).2.1
    rw [take_sortDesc_append_right key k, ih hn2, ← take_sortDesc_append_right key k,
      ← take_sortDesc_append_left key k _ _ hn]

end TopK

theorem utf8ByteSize_pos_iff (s : String) : 0 < s.utf8ByteSize ↔ s ≠ "" := by
  cases s with
  | mk l =>
    cases l with
    | nil => simp [String.utf8ByteSize, String.utf8ByteSize.go]
    | cons c cs =>
      simp only [String.utf8ByteSize, String.utf8ByteSize.go]
      have := Char.utf8Size_pos c
      constructor
      · intro _ h; exact absurd (congrArg String.data h) (by simp)
      · intro _; omega

theorem sortSlice_forward (l : List HTTPAccessLog) :
    sortSlice (lessRequestId false) l = sortDesc (fun r => r.RequestId.toList) l := by
  unfold sortSlice sortDesc
  apply insertionSort_congr
  intro x y
  simp [lessRequestId]

theorem sortSlice_backward (l : List HTTPAccessLog) :
    sortSlice (lessRequestId true) l
      = sortDesc (fun r => OrderDual.toDual r.RequestId.toList) l := by
  unfold sortSlice sortDesc
  apply insertionSort_congr
  intro x y
  simp [lessRequestId]

/-! ## Lemmas: the search as a merge of node pages -/

/-- The nodes that `listAccessLogs` starts a task for are the shards of the registry. -/
theorem daoList_eq_shardsOfRegistry (env : SearchEnv) : daoList env = shardsOfRegistry env := by
  unfold daoList shardsOfRegistry
  cases env.httpAccessLogDAOMapping with
  | nil => rfl
  | cons w ws => simp

theorem ite_utf8ByteSize_pos (s : String) (x : Bool) :
    (if s.utf8ByteSize > 0 then x else true) = (if s ≠ "" then x else true) := by
  by_cases h : s = ""
  · subst h
    simp [String.utf8ByteSize, String.utf8ByteSize.go]
  · have hpos : s.utf8ByteSize > 0 := (utf8ByteSize_pos_iff s).mpr h
    simp [h, hpos]

/-- The conditions that a task builds from the variables of the call are the filters of
the request, when the keyword predicate does not read the parameter of the cursor. -/
theorem otherConditions_eq_requestFilters {env : SearchEnv} {a : SearchArgs}
    (hkw : keywordIgnoresCursor env a.keyword)
    (hu : ¬ (a.userId > 0 ∧ (env.serverIdsOfUser a.userId).length = 0))
    (t : DayTable) (r : HTTPAccessLog) :
    otherConditions env a (if a.userId > 0 then env.serverIdsOfUser a.userId else []) t r
      = requestFilters env a t r := by
  unfold otherConditions requestFilters
  rw [hkw (cursorParam a.lastRequestId), ite_utf8ByteSize_pos, ite_utf8ByteSize_pos,
    ite_utf8ByteSize_pos]
  congr 8
  by_cases hs : a.serverId > 0
  · simp [hs]
  · by_cases hu1 : a.userId > 0
    · have hlen : (env.serverIdsOfUser a.userId).length > 0 := by
        rcases Nat.eq_zero_or_pos (env.serverIdsOfUser a.userId).length with h | h
        · exact absurd ⟨hu1, h⟩ hu
        · exact h
      simp [hs, hu1, hlen]
    · simp [hs, hu1]

theorem shardTask_snd_cursor (env : SearchEnv) (a : SearchArgs) (ids ids2 : List Int)
    (w : HTTPAccessLogDAOWrapper) (c : String) (n : Int) (b : Bool) :
    (shardTask env { a with lastRequestId := c, size := n, reverse := b } ids w).2
      = { (shardTask env a ids2 w).2 with lastRequestId := c, size := n, reverse := b } := by
  have hn : nodeCondition env { a with lastRequestId := c, size := n, reverse := b }
      = nodeCondition env a := rfl
  unfold shardTask
  rw [hn]
  dsimp only
  cases w.tableLookupError with
  | some e => rfl
  | none =>
    cases w.tables a.day with
    | none => rfl
    | some t =>
      cases nodeCondition env a with
      | none => rfl
      | some f =>
        cases w.queryError with
        | some e => rfl
        | none => rfl

theorem shardTask_snd_of_kept {env : SearchEnv} {a : SearchArgs}
    (hkeep : sharedTextsKept env a = true) {w : HTTPAccessLogDAOWrapper} (hw : w ∈ daoList env)
    (ids : List Int) (c : String) (n : Int) (b : Bool) :
    (shardTask env { a with lastRequestId := c, size := n, reverse := b } ids w).2
      = { a with lastRequestId := c, size := n, reverse := b } := by
  have h : (shardTask env a [] w).2 = a := by
    simp only [sharedTextsKept, List.all_eq_true, decide_eq_true_eq] at hkeep
    exact hkeep w hw
  rw [shardTask_snd_cursor env a ids [] w c n b, h]

/-- Whether the tasks keep the shared texts does not depend on the cursor, the page
size and the direction of the search. -/
theorem sharedTextsKept_cursor {env : SearchEnv} {a : SearchArgs}
    (hkeep : sharedTextsKept env a = true) (c : String) (n : Int) (b : Bool) :
    sharedTextsKept env { a with lastRequestId := c, size := n, reverse := b } = true := by
  simp only [sharedTextsKept, List.all_eq_true, decide_eq_true_eq]
  intro w hw
  exact shardTask_snd_of_kept hkeep hw [] c n b

/-- When no task assigns to the shared texts, every task starts with the variables of
the call and `result` is the concatenation of what each appends. -/
theorem shardTasks_eq_flatMap (env : SearchEnv) (ids : List Int) (a : SearchArgs) :
    ∀ (ws : List HTTPAccessLogDAOWrapper), (∀ w ∈ ws, (shardTask env a ids w).2 = a) →
      shardTasks env ids a ws = ws.flatMap (fun w => (shardTask env a ids w).1) := by
  intro ws
  induction ws with
  | nil => intro _; rfl
  | cons w ws ih =>
    intro h
    have hw : (shardTask env a ids w).2 = a := h w (List.mem_cons_self _ _)
    simp only [shardTasks, List.flatMap_cons, hw]
    rw [ih (fun x hx => h x (List.mem_cons_of_mem _ hx))]

theorem everyShardAnswers_wrapper {env : SearchEnv} {a : SearchArgs}
    (hans : everyShardAnswers env a = true) {w : HTTPAccessLogDAOWrapper} (hw : w ∈ daoList env) :
    w.tableLookupError = none ∧ w.queryError = none := by
  simp only [everyShardAnswers, ← daoList_eq_shardsOfRegistry, Bool.and_eq_true,
    List.all_eq_true] at hans
  have h := hans.1.1 w hw
  simpa [Option.isNone_iff_eq_none] using h

theorem shardTask_eq_shardPage {env : SearchEnv} {a : SearchArgs}
    (hans : everyShardAnswers env a = true) (hkw : keywordIgnoresCursor env a.keyword)
    {w : HTTPAccessLogDAOWrapper} (hw : w ∈ daoList env)
    (hu : ¬ (a.userId > 0 ∧ (env.serverIdsOfUser a.userId).length = 0)) :
    (shardTask env a (if a.userId > 0 then env.serverIdsOfUser a.userId else []) w).1
      = shardPage env a w := by
  obtain ⟨h1, h2⟩ := everyShardAnswers_wrapper hans hw
  have h3 : a.nodeId > 0 ∨ a.clusterId ≤ 0 ∨ env.nodeLookupError = none := by
    simp only [everyShardAnswers, Bool.and_eq_true, Bool.or_eq_true, decide_eq_true_eq,
      Option.isNone_iff_eq_none] at hans
    rcases hans.2 with (h | h) | h
    · exact Or.inl h
    · exact Or.inr (Or.inl h)
    · exact Or.inr (Or.inr h)
  have hu2 : (decide (a.userId > 0) && decide ((env.serverIdsOfUser a.userId).length = 0)) = false := by
    simpa using hu
  unfold shardTask shardPage matchingRows
  rw [h1, h2]
  cases htab : w.tables a.day with
  | none => simp [sortSlice]
  | some t =>
    simp only [otherConditions_eq_requestFilters hkw hu, List.filter_filter]
    by_cases hn : a.nodeId > 0
    · simp only [nodeCondition, hn, if_true]
      congr 2
      apply List.filter_congr
      intro r _
      simp only [matchesFilters, hn, if_true, hu2, Bool.not_false, Bool.and_true]
      exact Bool.and_comm _ _
    · by_cases hc : a.clusterId > 0
      · have h4 : env.nodeLookupError = none := by
          rcases h3 with h | h | h
          · exact absurd h hn
          · omega
          · exact h
        by_cases hl : (env.nodeIdsOfCluster a.clusterId).length > 0
        · simp only [nodeCondition, hn, if_false, hc, if_true, h4, hl]
          congr 2
          apply List.filter_congr
          intro r _
          simp only [matchesFilters, hn, if_false, hc, if_true, hu2, Bool.not_false, Bool.and_true]
          exact Bool.and_comm _ _
        · have hnil : env.nodeIdsOfCluster a.clusterId = [] := by
            cases hq : env.nodeIdsOfCluster a.clusterId with
            | nil => rfl
            | cons x xs => rw [hq] at hl; simp at hl
          simp [nodeCondition, hn, hc, h4, hl, matchesFilters, hnil, sortSlice]
      · simp only [nodeCondition, hn, if_false, hc]
        congr 2
        apply List.filter_congr
        intro r _
        simp only [matchesFilters, hn, if_false, hc, hu2, Bool.not_false, Bool.and_true,
          Bool.true_and]
        exact Bool.and_comm _ _

theorem matchingRows_user_without_servers {env : SearchEnv} {a : SearchArgs}
    (hu : a.userId > 0 ∧ (env.serverIdsOfUser a.userId).length = 0)
    (w : HTTPAccessLogDAOWrapper) : matchingRows env a w = [] := by
  unfold matchingRows
  cases w.tables a.day with
  | none => rfl
  | some t =>
    simp only [List.filter_eq_nil_iff]
    intro r _
    simp [matchesFilters, hu.1, hu.2]

theorem sortSlice_nil {α : Type} (less : α → α → Bool) : sortSlice less ([] : List α) = [] := rfl

theorem length_sortSlice {α : Type} (less : α → α → Bool) (l : List α) :
    (sortSlice less l).length = l.length :=
  List.length_insertionSort _ l

theorem mem_sortSlice {α : Type} (less : α → α → Bool) (l : List α) (x : α) :
    x ∈ sortSlice less l ↔ x ∈ l :=
  List.mem_insertionSort _

/-- With every node answering, `listAccessLogs` returns the merged page (reversed for
a backward search), the request id of its last row as the next cursor, and no
error. -/
theorem listAccessLogs_eq {env : SearchEnv} {a : SearchArgs}
    (hans : everyShardAnswers env a = true) (hkw : keywordIgnoresCursor env a.keyword)
    (hkeep : sharedTextsKept env a = true) (hsize : 0 < a.size) :
    listAccessLogs env a =
      (if a.reverse then (mergedPage env a).reverse else mergedPage env a,
       (match (mergedPage env a).getLast? with
        | some r => r.RequestId
        | none =>
          if a.userId > 0 ∧ (env.serverIdsOfUser a.userId).length = 0 then "" else a.lastRequestId),
       none) := by
  have hs : ¬ a.size ≤ 0 := by omega
  have herr : (if a.userId > 0 then env.serverLookupError else none) = none := by
    by_cases hu : a.userId > 0
    · have hle : ¬ a.userId ≤ 0 := by omega
      simp only [everyShardAnswers, Bool.and_eq_true, Bool.or_eq_true, decide_eq_true_eq,
        Option.isNone_iff_eq_none] at hans
      rcases hans.1.2 with h | h
      · exact absurd h hle
      · simp [hu, h]
    · simp [hu]
  unfold listAccessLogs mergeResults
  simp only [hs, if_false, herr]
  by_cases hu : a.userId > 0 ∧ (env.serverIdsOfUser a.userId).length = 0
  · have hm : mergedPage env a = [] := by
      have hflat : (daoList env).flatMap (shardPage env a) = [] := by
        apply List.flatMap_eq_nil_iff.mpr
        intro w _
        unfold shardPage
        rw [matchingRows_user_without_servers hu, List.filter_nil, sortSlice_nil, List.take_nil]
      unfold mergedPage
      rw [hflat, sortSlice_nil, List.take_nil]
    have hu2 : a.userId > 0 ∧
        (if a.userId > 0 then env.serverIdsOfUser a.userId else []).length = 0 := by
      simpa [hu.1] using hu
    simp [hu2, hm, hu]
  · have hu2 : ¬ (a.userId > 0 ∧
        (if a.userId > 0 then env.serverIdsOfUser a.userId else []).length = 0) := by
      intro h
      exact hu ⟨h.1, by simpa [h.1] using h.2⟩
    have hres : shardTasks env (if a.userId > 0 then env.serverIdsOfUser a.userId else []) a
        (daoList env) = (daoList env).flatMap (shardPage env a) := by
      rw [shardTasks_eq_flatMap env _ a (daoList env)
        (fun w hw => shardTask_snd_of_kept hkeep hw _ a.lastRequestId a.size a.reverse)]
      exact List.flatMap_congr (fun w hw => shardTask_eq_shardPage hans hkw hw hu)
    simp only [hu2, if_false, hres]
    by_cases hlen : ((daoList env).flatMap (shardPage env a)).length = 0
    · have hnil : (daoList env).flatMap (shardPage env a) = [] := List.length_eq_zero.mp hlen
      have hm : mergedPage env a = [] := by
        unfold mergedPage
        rw [hnil, sortSlice_nil, List.take_nil]
      have hu3 : ¬ (0 < a.userId ∧ env.serverIdsOfUser a.userId = []) := by
        intro h
        exact hu ⟨h.1, by simp [h.2]⟩
      simp [hlen, hm, hu3]
    · have hpage : (if ((sortSlice (lessRequestId a.reverse)
            ((daoList env).flatMap (shardPage env a))).length : Int) > a.size
          then (sortSlice (lessRequestId a.reverse)
            ((daoList env).flatMap (shardPage env a))).take a.size.toNat
          else sortSlice (lessRequestId a.reverse) ((daoList env).flatMap (shardPage env a)))
          = mergedPage env a := by
        unfold mergedPage
        split
        · rfl
        · rename_i hgt
          symm
          apply List.take_of_length_le
          omega
      have hne : mergedPage env a ≠ [] := by
        unfold mergedPage
        intro h
        rcases List.take_eq_nil_iff.mp h with h0 | h0
        · omega
        · have := congrArg List.length h0
          rw [length_sortSlice] at this
          exact hlen this
      simp only [hlen, if_false, hpage]
      cases hlast : (mergedPage env a).getLast? with
      | none => exact absurd (List.getLast?_eq_none_iff.mp hlast) hne
      | some r => rfl

/-- A host filter without `*` and a keyword that does not begin with `ip:` are left as
they are by every task. -/
theorem sharedTextsKept_of_plain_texts (env : SearchEnv) (a : SearchArgs)
    (hd : containsStar a.domain = false) (hkw : matchesIpPrefix a.keyword = false) :
    sharedTextsKept env a = true := by
  have hassigned : ∀ t, assignedTexts env a t = a := by
    intro t
    unfold assignedTexts
    simp [hd, hkw]
  simp only [sharedTextsKept, List.all_eq_true, decide_eq_true_eq]
  intro w _
  unfold shardTask
  cases w.tableLookupError with
  | some e => rfl
  | none =>
    cases w.tables a.day with
    | none => rfl
    | some t =>
      cases nodeCondition env a with
      | none => rfl
      | some f =>
        cases w.queryError with
        | some e => exact hassigned t
        | none => exact hassigned t

/-! ## Theorems: order and size of a page -/

theorem sortSlice_descending_or_ascending (reverse : Bool) (l : List HTTPAccessLog) :
    (sortSlice (lessRequestId reverse) l).Pairwise (fun x y =>
      if reverse then x.RequestId.toList ≤ y.RequestId.toList
      else y.RequestId.toList ≤ x.RequestId.toList) := by
  cases reverse with
  | false =>
    rw [sortSlice_forward]
    simpa using sortDesc_sorted (fun r : HTTPAccessLog => r.RequestId.toList) l
  | true =>
    rw [sortSlice_backward]
    simpa using sortDesc_sorted (fun r : HTTPAccessLog => OrderDual.toDual r.RequestId.toList) l

theorem mergeResults_page_descending (a : SearchArgs) (result : List HTTPAccessLog) :
    ((mergeResults a result).1).Pairwise
      (fun x y => y.RequestId.toList ≤ x.RequestId.toList) := by
  have hsorted := sortSlice_descending_or_ascending a.reverse result
  have hpage : ∀ (page : List HTTPAccessLog),
      page.Sublist (sortSlice (lessRequestId a.reverse) result) →
      (if a.reverse then page.reverse else page).Pairwise
        (fun x y => y.RequestId.toList ≤ x.RequestId.toList) := by
    intro page hsub
    have hp := hsorted.sublist hsub
    cases hr : a.reverse with
    | false => simpa [hr] using hp
    | true =>
      simp only [hr, if_true] at hp ⊢
      exact List.pairwise_reverse.mpr hp
  unfold mergeResults
  by_cases h0 : result.length = 0
  · simp [h0]
  · simp only [h0, if_false]
    by_cases hgt : ((sortSlice (lessRequestId a.reverse) result).length : Int) > a.size
    · simp only [hgt, if_true]
      exact hpage _ (List.take_sublist _ _)
    · simp only [hgt, if_false]
      exact hpage _ (List.Sublist.refl _)

theorem mergeResults_length_le (a : SearchArgs) (hs : 0 < a.size) (result : List HTTPAccessLog) :
    (mergeResults a result).1.length ≤ a.size.toNat := by
  have hlen : ∀ (page : List HTTPAccessLog), page.length ≤ a.size.toNat →
      (if a.reverse then page.reverse else page).length ≤ a.size.toNat := by
    intro page hp
    split
    · simpa using hp
    · exact hp
  unfold mergeResults
  by_cases h0 : result.length = 0
  · simp [h0]
  · simp only [h0, if_false]
    by_cases hgt : ((sortSlice (lessRequestId a.reverse) result).length : Int) > a.size
    · simp only [hgt, if_true]
      exact hlen _ (by rw [List.length_take]; exact Nat.min_le_left _ _)
    · simp only [hgt, if_false]
      exact hlen _ (by omega)

/-- The page of `listAccessLogs` is empty or comes out of `mergeResults`. -/
theorem listAccessLogs_page_cases (env : SearchEnv) (a : SearchArgs) :
    (listAccessLogs env a).1 = [] ∨
      (0 < a.size ∧ ∃ result, (listAccessLogs env a).1 = (mergeResults a result).1) := by
  unfold listAccessLogs
  by_cases hs : a.size ≤ 0
  · simp [hs]
  · simp only [hs, if_false]
    cases (if a.userId > 0 then env.serverLookupError else none) with
    | some err => simp
    | none =>
      dsimp only
      by_cases hu : a.userId > 0 ∧
          (if a.userId > 0 then env.serverIdsOfUser a.userId else []).length = 0
      · rw [if_pos hu]
        exact Or.inl rfl
      · rw [if_neg hu]
        exact Or.inr ⟨by omega, _, rfl⟩

/-- The page of `ListAccessLogs` is empty for a day that is not 8 bytes long and is the
page of `listAccessLogs` with the capped size otherwise. -/
theorem ListAccessLogs_page (env : SearchEnv) (a : SearchArgs) :
    (ListAccessLogs env a).1 =
      if a.day.utf8ByteSize ≠ 8 then []
      else (listAccessLogs env { a with size := if a.size > 1000 then 1000 else a.size }).1 := by
  unfold ListAccessLogs
  by_cases hd : a.day.utf8ByteSize ≠ 8
  · rw [if_pos hd, if_pos hd]
  · rw [if_neg hd, if_neg hd]
    dsimp only
    split_ifs <;> rfl

theorem listAccessLogs_page_descending (env : SearchEnv) (a : SearchArgs) :
    ((listAccessLogs env a).1).Pairwise
      (fun x y => y.RequestId.toList ≤ x.RequestId.toList) := by
  rcases listAccessLogs_page_cases env a with h | ⟨_, result, h⟩
  · rw [h]; exact List.Pairwise.nil
  · rw [h]; exact mergeResults_page_descending a result

/-- C7 (counterexample). A backward search over the rows `...01` and `...03` returns a
non-empty page that starts with the larger request id: it is not in ascending
order. -/
theorem backward_page_is_not_ascending :
    (sampleArgs "" 2 true).reverse = true ∧
    (listAccessLogs (sampleEnv [sampleShard ["2024011510000001", "2024011510000003"]])
      (sampleArgs "" 2 true)).1.map (fun r => r.RequestId)
      = ["2024011510000003", "2024011510000001"] ∧
    ¬ ((listAccessLogs (sampleEnv [sampleShard ["2024011510000001", "2024011510000003"]])
      (sampleArgs "" 2 true)).1).Pairwise
        (fun x y => x.RequestId.toList ≤ y.RequestId.toList) := by
  decide

/-- C7 (amended). The rows of every page returned by `listAccessLogs`, and so by
`ListAccessLogs`, are in descending order of request id, for a forward search and
for a backward search alike. -/
theorem page_is_descending_in_both_directions (env : SearchEnv) (a : SearchArgs) :
    ((listAccessLogs env a).1).Pairwise (fun x y => y.RequestId.toList ≤ x.RequestId.toList)
    ∧ ((ListAccessLogs env a).1).Pairwise
        (fun x y => y.RequestId.toList ≤ x.RequestId.toList) := by
  refine ⟨listAccessLogs_page_descending env a, ?_⟩
  rw [ListAccessLogs_page]
  split
  · exact List.Pairwise.nil
  · exact listAccessLogs_page_descending env _

theorem listAccessLogs_length_le (env : SearchEnv) (a : SearchArgs) :
    (listAccessLogs env a).1.length ≤ a.size.toNat := by
  rcases listAccessLogs_page_cases env a with h | ⟨hs, result, h⟩
  · rw [h]; simp
  · rw [h]; exact mergeResults_length_le a hs result

/-- C9. The page returned by `ListAccessLogs` has at most `min(size, 1000)` rows, and no
row when `size ≤ 0`, whatever the nodes hold and answer. -/
theorem page_has_at_most_min_size_1000_rows (env : SearchEnv) (a : SearchArgs) :
    ((ListAccessLogs env a).1.length : Int) ≤ max 0 (min a.size 1000)
    ∧ (a.size ≤ 0 → (ListAccessLogs env a).1 = []) := by
  have hlen : (ListAccessLogs env a).1.length ≤ (min a.size 1000).toNat := by
    rw [ListAccessLogs_page]
    split
    · simp
    · have hmin : (if a.size > 1000 then (1000 : Int) else a.size) = min a.size 1000 := by
        split <;> omega
      have h := listAccessLogs_length_le env
        { a with size := if a.size > 1000 then 1000 else a.size }
      simp only [hmin] at h ⊢
      exact h
  refine ⟨by omega, ?_⟩
  intro h0
  apply List.length_eq_zero.mp
  have : (min a.size 1000).toNat = 0 := by omega
  omega

/-! ## Theorems: the merged page is the global one -/

theorem sublist_flatMap {α β : Type} (f g : β → List α) (ws : List β)
    (h : ∀ w, (f w).Sublist (g w)) : (ws.flatMap f).Sublist (ws.flatMap g) := by
  induction ws with
  | nil => simp
  | cons w ws ih =>
    simp only [List.flatMap_cons]
    exact (h w).append ih

theorem matchingRows_filter_sublist (env : SearchEnv) (a : SearchArgs) (p : HTTPAccessLog → Bool) :
    ((daoList env).flatMap (fun w => (matchingRows env a w).filter p)).Sublist
      (allRows env a.day) := by
  unfold allRows
  rw [← daoList_eq_shardsOfRegistry]
  apply sublist_flatMap
  intro w
  unfold matchingRows
  cases w.tables a.day with
  | none => simp
  | some t => exact (List.filter_sublist _).trans (List.filter_sublist _)

theorem allMatchingRows_sublist_allRows (env : SearchEnv) (a : SearchArgs) :
    (allMatchingRows env a).Sublist (allRows env a.day) := by
  have h := matchingRows_filter_sublist env a (fun _ => true)
  simp only [List.filter_true] at h
  unfold allMatchingRows
  rw [← daoList_eq_shardsOfRegistry]
  exact h

theorem nodup_keys_of_nodup_requestIds {κ : Type} (f : List Char → κ)
    (hf : Function.Injective f) {l m : List HTTPAccessLog} (hsub : l.Sublist m)
    (hn : (m.map (fun r => r.RequestId)).Nodup) :
    (l.map (fun r => f r.RequestId.toList)).Nodup := by
  have h1 : (l.map (fun r => r.RequestId)).Nodup := hn.sublist (hsub.map _)
  have hinj : Function.Injective (fun s : String => f s.toList) :=
    fun s t hst => String.ext (hf hst)
  have h2 := h1.map hinj
  simpa [List.map_map, Function.comp_def] using h2

/-- With request ids that are unique over all nodes, merging the pages of the nodes
gives the first `size` rows of the sorted list of all matching rows beyond the
cursor. -/
theorem mergedPage_eq_global {env : SearchEnv} {a : SearchArgs}
    (hn : ((allRows env a.day).map (fun r => r.RequestId)).Nodup) :
    mergedPage env a =
      (sortSlice (lessRequestId a.reverse)
        ((allMatchingRows env a).filter (cursorCondition a.lastRequestId a.reverse))).take
          a.size.toNat := by
  have hsub := matchingRows_filter_sublist env a (cursorCondition a.lastRequestId a.reverse)
  unfold mergedPage shardPage allMatchingRows
  rw [← daoList_eq_shardsOfRegistry, List.filter_flatMap]
  cases hr : a.reverse with
  | false =>
    simp only [sortSlice_forward]
    exact take_sortDesc_flatMap (fun r : HTTPAccessLog => r.RequestId.toList) a.size.toNat _ _
      (nodup_keys_of_nodup_requestIds id Function.injective_id (hr ▸ hsub) hn)
  | true =>
    simp only [sortSlice_backward]
    exact take_sortDesc_flatMap (fun r : HTTPAccessLog => OrderDual.toDual r.RequestId.toList)
      a.size.toNat _ _
      (nodup_keys_of_nodup_requestIds OrderDual.toDual OrderDual.toDual.injective (hr ▸ hsub) hn)

theorem cursorCondition_eq (c : String) (reverse : Bool) (r : HTTPAccessLog) :
    cursorCondition c reverse r = (decide (c = "") || beyondCursor c reverse r) := by
  unfold cursorCondition beyondCursor
  by_cases hc : c = ""
  · subst hc
    simp [String.utf8ByteSize, String.utf8ByteSize.go]
  · have hpos : 0 < c.utf8ByteSize := (utf8ByteSize_pos_iff c).mpr hc
    simp [hpos, hc]

theorem le_of_getLast_of_descending {l : List HTTPAccessLog} {r : HTTPAccessLog}
    (hl : l.Pairwise (fun x y => y.RequestId.toList ≤ x.RequestId.toList))
    (hr : l.getLast? = some r) : ∀ x ∈ l, r.RequestId.toList ≤ x.RequestId.toList := by
  obtain ⟨ys, rfl⟩ := List.getLast?_eq_some_iff.mp hr
  intro x hx
  rcases List.mem_append.mp hx with h | h
  · exact (List.pairwise_append.mp hl).2.2 x h r (by simp)
  · simp only [List.mem_singleton] at h
    subst h
    exact le_refl _

/-- Where the parameter `requestId` is bound once and no task assigns to the shared
texts, the forward page is the one that the specification describes. With request
ids unique across the nodes, every node answering, a keyword predicate that does
not read the parameter of the cursor and tasks that leave the shared texts as they
are, a forward search with page size
`k ≥ 1` returns exactly the `k` matching rows with the largest request ids strictly
below the cursor (of all matching rows when the cursor is empty), or all of them
when fewer exist, largest first, and the next cursor is the request id of the last
row of the page, which is the smallest of the page. -/
theorem forward_page_is_largest_below_cursor (env : SearchEnv) (a : SearchArgs)
    (huniq : ((allRows env a.day).map (fun r => r.RequestId)).Nodup)
    (hans : everyShardAnswers env a = true) (hind : keywordIgnoresCursor env a.keyword)
    (hkeep : sharedTextsKept env a = true) (hfwd : a.reverse = false) (hk : 1 ≤ a.size) :
    (listAccessLogs env a).1 = largestBelowCursor env a a.size.toNat
    ∧ (∀ r, (listAccessLogs env a).1.getLast? = some r →
        (listAccessLogs env a).2.1 = r.RequestId
        ∧ ∀ x ∈ (listAccessLogs env a).1, r.RequestId.toList ≤ x.RequestId.toList) := by
  have heq := listAccessLogs_eq hans hind hkeep (by omega : 0 < a.size)
  have hpage : (listAccessLogs env a).1 = mergedPage env a := by
    rw [heq]; simp [hfwd]
  refine ⟨?_, ?_⟩
  · rw [hpage, mergedPage_eq_global huniq, hfwd, sortSlice_forward]
    unfold largestBelowCursor
    congr 2
    apply List.filter_congr
    intro r _
    rw [cursorCondition_eq]
  · intro r hr
    refine ⟨?_, le_of_getLast_of_descending (listAccessLogs_page_descending env a) hr⟩
    rw [hpage] at hr
    rw [heq]
    simp only [hr]

/-- The scenario of the specification: page size 2, no cursor, no filter. The search
returns `...03` and `...02`, the cursor `...02` and `hasMore = true`, and the page is
the one that the specification describes. -/
theorem scenario_page_is_largest_below_cursor :
    ListAccessLogs scenarioEnv (sampleArgs "" 2 false)
        = ([sampleRow "2024011510000003", sampleRow "2024011510000002"],
            "2024011510000002", true, none)
    ∧ (listAccessLogs scenarioEnv (sampleArgs "" 2 false)).1
        = largestBelowCursor scenarioEnv (sampleArgs "" 2 false) 2 := by
  decide

/-- C6 (failing inputs). Two forward searches of size 2 over unique request ids, every
node answering, in which `listAccessLogs` does not return the matching rows with the
largest request ids below the cursor.

(a) One node holds `...01`, `...02`, `...03` (ids of 20 digits); the keyword is the id
`20240115100000000002` and the cursor `20240115100000000009`. The keyword group
binds the parameter `requestId` to the keyword (line 463) and the cursor clause
binds the same name to the cursor (line 478), so the query compares the request id
with the cursor: the page is empty and the cursor comes back unchanged, although
the row `...02` matches the keyword and lies below the cursor.

(b) Two nodes hold `...03` of host `a.example.com` and `...02` of host
`b.example.com`; the host filter is `*.example.com`, without a cursor. The task of
the first node turns the shared variable `domain` into `%.example.com` (lines
394-395); the task of the second node, run after it, finds no `*` in it and asks for
the host equal to `%.example.com` (line 399): the page holds `...03` alone, although
both rows match the host filter. With the registry visited in the other order the
page holds `...02` alone. -/
theorem forward_search_misses_matching_rows :
    (((allRows longIdEnv longIdArgs.day).map (fun r => r.RequestId)).Nodup
      ∧ everyShardAnswers longIdEnv longIdArgs = true
      ∧ longIdArgs.reverse = false
      ∧ listAccessLogs longIdEnv longIdArgs = ([], "20240115100000000009", none)
      ∧ largestBelowCursor longIdEnv longIdArgs 2 = [sampleRow "20240115100000000002"])
    ∧ (((allRows twoHostsEnv wildcardArgs.day).map (fun r => r.RequestId)).Nodup
      ∧ everyShardAnswers twoHostsEnv wildcardArgs = true
      ∧ wildcardArgs.reverse = false
      ∧ listAccessLogs twoHostsEnv wildcardArgs
          = ([hostRow "2024011510000003" "a.example.com"], "2024011510000003", none)
      ∧ largestBelowCursor twoHostsEnv wildcardArgs 2
          = [hostRow "2024011510000003" "a.example.com",
             hostRow "2024011510000002" "b.example.com"]
      ∧ listAccessLogs
          (reordered twoHostsEnv [hostShard [hostRow "2024011510000002" "b.example.com"],
                                  hostShard [hostRow "2024011510000003" "a.example.com"]])
          wildcardArgs
          = ([hostRow "2024011510000002" "b.example.com"], "2024011510000002", none)) := by
  decide

/-! ## Theorems: the order in which the registry is visited -/

theorem daoList_reordered {env : SearchEnv} {ws : List HTTPAccessLogDAOWrapper}
    (hp : ws.Perm env.httpAccessLogDAOMapping) : (daoList (reordered env ws)).Perm (daoList env) := by
  unfold daoList reordered
  dsimp only
  rw [hp.length_eq]
  split
  · exact List.Perm.refl _
  · exact hp

theorem allRows_reordered {env : SearchEnv} {ws : List HTTPAccessLogDAOWrapper}
    (hp : ws.Perm env.httpAccessLogDAOMapping) (day : String) :
    (allRows (reordered env ws) day).Perm (allRows env day) := by
  unfold allRows
  rw [← daoList_eq_shardsOfRegistry, ← daoList_eq_shardsOfRegistry]
  exact List.Perm.flatMap_right _ (daoList_reordered hp)

theorem allMatchingRows_reordered {env : SearchEnv} {ws : List HTTPAccessLogDAOWrapper}
    (hp : ws.Perm env.httpAccessLogDAOMapping) (a : SearchArgs) :
    (allMatchingRows (reordered env ws) a).Perm (allMatchingRows env a) := by
  unfold allMatchingRows
  rw [← daoList_eq_shardsOfRegistry, ← daoList_eq_shardsOfRegistry]
  exact List.Perm.flatMap_right (matchingRows env a) (daoList_reordered hp)

/-- With unique request ids, every node answering, a keyword predicate that does not
read the cursor parameter and tasks that leave the shared texts as they are, a
search returns the same page and the same cursor in whatever order it visits the
registry. -/
theorem listAccessLogs_reordered {env : SearchEnv} {a : SearchArgs}
    {ws : List HTTPAccessLogDAOWrapper} (hp : ws.Perm env.httpAccessLogDAOMapping)
    (huniq : ((allRows env a.day).map (fun r => r.RequestId)).Nodup)
    (hans : everyShardAnswers env a = true) (hind : keywordIgnoresCursor env a.keyword)
    (hkeep : sharedTextsKept env a = true) (hk : 1 ≤ a.size) :
    listAccessLogs (reordered env ws) a = listAccessLogs env a := by
  have hd := daoList_reordered hp
  have huniq2 : ((allRows (reordered env ws) a.day).map (fun r => r.RequestId)).Nodup :=
    (((allRows_reordered hp a.day).map _).nodup_iff).mpr huniq
  have hans2 : everyShardAnswers (reordered env ws) a = true := by
    simp only [everyShardAnswers, ← daoList_eq_shardsOfRegistry, Bool.and_eq_true,
      List.all_eq_true] at hans ⊢
    exact ⟨⟨fun w hw => hans.1.1 w (hd.mem_iff.mp hw), hans.1.2⟩, hans.2⟩
  have hkeep2 : sharedTextsKept (reordered env ws) a = true := by
    simp only [sharedTextsKept, List.all_eq_true] at hkeep ⊢
    exact fun w hw => hkeep w (hd.mem_iff.mp hw)
  have hmerged : mergedPage (reordered env ws) a = mergedPage env a := by
    rw [mergedPage_eq_global huniq2, mergedPage_eq_global huniq]
    have hperm : ((allMatchingRows (reordered env ws) a).filter
        (cursorCondition a.lastRequestId a.reverse)).Perm
        ((allMatchingRows env a).filter (cursorCondition a.lastRequestId a.reverse)) :=
      (allMatchingRows_reordered hp a).filter _
    have hsub0 := allMatchingRows_sublist_allRows (reordered env ws) a
    have hsub := (@List.filter_sublist _ (cursorCondition a.lastRequestId a.reverse)
      (allMatchingRows (reordered env ws) a)).trans hsub0
    congr 1
    cases hr : a.reverse with
    | false =>
      rw [sortSlice_forward, sortSlice_forward]
      exact sortDesc_eq_of_perm _ (hr ▸ hperm)
        (nodup_keys_of_nodup_requestIds id Function.injective_id (hr ▸ hsub) huniq2)
    | true =>
      rw [sortSlice_backward, sortSlice_backward]
      exact sortDesc_eq_of_perm _ (hr ▸ hperm)
        (nodup_keys_of_nodup_requestIds OrderDual.toDual OrderDual.toDual.injective
          (hr ▸ hsub) huniq2)
  rw [listAccessLogs_eq hans2 hind hkeep2 (by omega : 0 < a.size),
    listAccessLogs_eq hans hind hkeep (by omega : 0 < a.size), hmerged]
  rfl

/-! ## Theorems: the look-ahead -/

theorem length_le_length_flatMap {α β : Type} (f : β → List α) {ws : List β} {w : β}
    (hw : w ∈ ws) : (f w).length ≤ (ws.flatMap f).length := by
  induction ws with
  | nil => simp at hw
  | cons v ws ih =>
    simp only [List.flatMap_cons, List.length_append]
    rcases List.mem_cons.mp hw with h | h
    · subst h; omega
    · have := ih h; omega

theorem mem_allMatchingRows {env : SearchEnv} {a : SearchArgs} {r : HTTPAccessLog} :
    r ∈ allMatchingRows env a ↔ ∃ w ∈ daoList env, r ∈ matchingRows env a w := by
  unfold allMatchingRows
  rw [← daoList_eq_shardsOfRegistry]
  exact List.mem_flatMap

theorem allMatchingRows_subset_allRows {env : SearchEnv} {a : SearchArgs} {r : HTTPAccessLog}
    (h : r ∈ allMatchingRows env a) : r ∈ allRows env a.day :=
  (allMatchingRows_sublist_allRows env a).subset h

/-- The matching rows are those of the request: they are the same for every cursor,
page size and direction. -/
theorem allMatchingRows_cursor (env : SearchEnv) (a : SearchArgs) (c : String) (n : Int)
    (b : Bool) :
    allMatchingRows env { a with lastRequestId := c, size := n, reverse := b }
      = allMatchingRows env a := rfl

/-- Every row of the merged page is a matching row beyond the cursor. -/
theorem mem_mergedPage {env : SearchEnv} {a : SearchArgs} {r : HTTPAccessLog}
    (h : r ∈ mergedPage env a) :
    r ∈ allMatchingRows env a ∧ cursorCondition a.lastRequestId a.reverse r = true := by
  unfold mergedPage at h
  have h1 := (mem_sortSlice _ _ _).mp (List.mem_of_mem_take h)
  obtain ⟨w, hw, hr⟩ := List.mem_flatMap.mp h1
  unfold shardPage at hr
  have h2 := (mem_sortSlice _ _ _).mp (List.mem_of_mem_take hr)
  have h3 := List.mem_filter.mp h2
  exact ⟨mem_allMatchingRows.mpr ⟨w, hw, h3.1⟩, h3.2⟩

/-- A merged page shorter than the page size holds every matching row beyond the
cursor. -/
theorem mem_mergedPage_of_short {env : SearchEnv} {a : SearchArgs}
    (hshort : (mergedPage env a).length < a.size.toNat) {r : HTTPAccessLog}
    (hr : r ∈ allMatchingRows env a) (hc : cursorCondition a.lastRequestId a.reverse r = true) :
    r ∈ mergedPage env a := by
  obtain ⟨w, hw, hrw⟩ := mem_allMatchingRows.mp hr
  unfold mergedPage at hshort ⊢
  rw [List.length_take, length_sortSlice] at hshort
  have hT : ((daoList env).flatMap (shardPage env a)).length < a.size.toNat := by omega
  rw [List.take_of_length_le (by rw [length_sortSlice]; omega), mem_sortSlice]
  apply List.mem_flatMap.mpr
  refine ⟨w, hw, ?_⟩
  have hw2 := length_le_length_flatMap (shardPage env a) hw
  have hlen : (shardPage env a w).length = min a.size.toNat
      ((matchingRows env a w).filter (cursorCondition a.lastRequestId a.reverse)).length := by
    unfold shardPage
    rw [List.length_take, length_sortSlice]
  unfold shardPage
  rw [List.take_of_length_le (by rw [length_sortSlice]; omega), mem_sortSlice]
  exact List.mem_filter.mpr ⟨hrw, hc⟩

/-- For a page size of at least 1, the merged page is non-empty exactly when some
matching row lies beyond the cursor. -/
theorem mergedPage_ne_nil_iff {env : SearchEnv} {a : SearchArgs} (hk : 1 ≤ a.size) :
    mergedPage env a ≠ [] ↔
      ∃ r ∈ allMatchingRows env a, cursorCondition a.lastRequestId a.reverse r = true := by
  constructor
  · intro hne
    obtain ⟨r, hr⟩ := List.exists_mem_of_ne_nil _ hne
    exact ⟨r, mem_mergedPage hr⟩
  · rintro ⟨r, hr, hc⟩ hnil
    have hshort : (mergedPage env a).length < a.size.toNat := by
      rw [hnil]; simp; omega
    have := mem_mergedPage_of_short hshort hr hc
    rw [hnil] at this
    simp at this

theorem rel_of_getLast {α : Type} {R : α → α → Prop} {l : List α} {z : α}
    (hl : l.Pairwise R) (hz : l.getLast? = some z) : ∀ x ∈ l, x = z ∨ R x z := by
  obtain ⟨ys, rfl⟩ := List.getLast?_eq_some_iff.mp hz
  intro x hx
  rcases List.mem_append.mp hx with h | h
  · exact Or.inr ((List.pairwise_append.mp hl).2.2 x h z (by simp))
  · simp only [List.mem_singleton] at h
    exact Or.inl h

/-- No row of the merged page lies beyond the request id of its last row. -/
theorem not_beyond_last_of_mergedPage {env : SearchEnv} {a : SearchArgs} {z : HTTPAccessLog}
    (hz : (mergedPage env a).getLast? = some z) :
    ∀ x ∈ mergedPage env a, beyondCursor z.RequestId a.reverse x = false := by
  have hsorted : (mergedPage env a).Pairwise (fun x y =>
      if a.reverse then x.RequestId.toList ≤ y.RequestId.toList
      else y.RequestId.toList ≤ x.RequestId.toList) :=
    (sortSlice_descending_or_ascending a.reverse _).sublist (List.take_sublist _ _)
  intro x hx
  unfold beyondCursor
  rcases rel_of_getLast hsorted hz x hx with h | h
  · subst h
    cases a.reverse <;> simp
  · cases hr : a.reverse with
    | false => simpa [hr] using h
    | true => simpa [hr] using h

theorem beyond_trans {c : String} {reverse : Bool} {r z : HTTPAccessLog}
    (h1 : beyondCursor c reverse z = true) (h2 : beyondCursor z.RequestId reverse r = true) :
    beyondCursor c reverse r = true := by
  unfold beyondCursor at *
  cases reverse with
  | false =>
    simp only [Bool.not_false, if_true, decide_eq_true_eq] at h1 h2 ⊢
    exact lt_trans (b := z.RequestId.toList) h2 h1
  | true =>
    simp only [Bool.not_true, Bool.false_eq_true, if_false, decide_eq_true_eq] at h1 h2 ⊢
    exact lt_trans (b := z.RequestId.toList) h1 h2

/-- A page shorter than the page size leaves no matching row beyond the next cursor. -/
theorem nothing_beyond_short_page {env : SearchEnv} {a : SearchArgs}
    (hans : everyShardAnswers env a = true) (hind : keywordIgnoresCursor env a.keyword)
    (hkeep : sharedTextsKept env a = true) (hk : 1 ≤ a.size)
    (hshort : (mergedPage env a).length < a.size.toNat) :
    ¬ ∃ r ∈ allMatchingRows env a, beyondCursor (listAccessLogs env a).2.1 a.reverse r = true := by
  rw [listAccessLogs_eq hans hind hkeep (by omega : 0 < a.size)]
  rintro ⟨r, hr, hb⟩
  cases hlast : (mergedPage env a).getLast? with
  | none =>
    simp only [hlast] at hb
    by_cases hu : a.userId > 0 ∧ (env.serverIdsOfUser a.userId).length = 0
    · obtain ⟨w, _, hrw⟩ := mem_allMatchingRows.mp hr
      rw [matchingRows_user_without_servers hu] at hrw
      simp at hrw
    · rw [if_neg hu] at hb
      have hnil := List.getLast?_eq_none_iff.mp hlast
      have hc : cursorCondition a.lastRequestId a.reverse r = true := by
        rw [cursorCondition_eq, hb, Bool.or_true]
      exact (mergedPage_ne_nil_iff hk).mpr ⟨r, hr, hc⟩ hnil
  | some z =>
    simp only [hlast] at hb
    have hz : z ∈ mergedPage env a := List.mem_of_getLast?_eq_some hlast
    by_cases hc : cursorCondition a.lastRequestId a.reverse r = true
    · have hmem := mem_mergedPage_of_short hshort hr hc
      have := not_beyond_last_of_mergedPage hlast r hmem
      rw [this] at hb
      exact Bool.false_ne_true hb
    · have hzc := (mem_mergedPage hz).2
      rw [cursorCondition_eq] at hc hzc
      have hne : decide (a.lastRequestId = "") = false := by
        cases hd : decide (a.lastRequestId = "") with
        | false => rfl
        | true => rw [hd] at hc; simp at hc
      rw [hne, Bool.false_or] at hc hzc
      exact hc (beyond_trans hzc hb)

/-- After a full page, the look-ahead query finds a row exactly when some matching row
lies beyond the next cursor, provided no stored request id is empty. -/
theorem probe_after_full_page {env : SearchEnv} {a : SearchArgs}
    (hans : everyShardAnswers env a = true) (hk : 1 ≤ a.size)
    (hid : ∀ r ∈ allRows env a.day, r.RequestId ≠ "")
    (hind : keywordIgnoresCursor env a.keyword) (hkeep : sharedTextsKept env a = true)
    (hfull : ¬ (mergedPage env a).length < a.size.toNat) :
    (listAccessLogs env
        { a with lastRequestId := (listAccessLogs env a).2.1, size := 1 }).1.length > 0 ↔
      ∃ r ∈ allMatchingRows env a, beyondCursor (listAccessLogs env a).2.1 a.reverse r = true := by
  have hne : mergedPage env a ≠ [] := by
    intro h
    rw [h] at hfull
    simp at hfull
    omega
  obtain ⟨z, hz⟩ : ∃ z, (mergedPage env a).getLast? = some z := by
    cases hl : (mergedPage env a).getLast? with
    | none => exact absurd (List.getLast?_eq_none_iff.mp hl) hne
    | some z => exact ⟨z, rfl⟩
  have hnext : (listAccessLogs env a).2.1 = z.RequestId := by
    rw [listAccessLogs_eq hans hind hkeep (by omega : 0 < a.size)]
    simp only [hz]
  have hzne : z.RequestId ≠ "" :=
    hid z (allMatchingRows_subset_allRows (mem_mergedPage (List.mem_of_getLast?_eq_some hz)).1)
  rw [hnext]
  have hans2 : everyShardAnswers env { a with lastRequestId := z.RequestId, size := 1 } = true :=
    hans
  have hprobe := listAccessLogs_eq hans2 hind (sharedTextsKept_cursor hkeep z.RequestId 1 a.reverse)
    (by decide : (0 : Int) < 1)
  have hlen : (listAccessLogs env { a with lastRequestId := z.RequestId, size := 1 }).1.length
      = (mergedPage env { a with lastRequestId := z.RequestId, size := 1 }).length := by
    rw [hprobe]
    dsimp only
    split
    · rw [List.length_reverse]
    · rfl
  rw [hlen]
  have hiff := @mergedPage_ne_nil_iff env
    { a with lastRequestId := z.RequestId, size := 1 } (le_refl (1 : Int))
  have hall : allMatchingRows env { a with lastRequestId := z.RequestId, size := 1 }
      = allMatchingRows env a := rfl
  rw [hall] at hiff
  have hcur : ∀ r, cursorCondition z.RequestId a.reverse r = beyondCursor z.RequestId a.reverse r := by
    intro r
    rw [cursorCondition_eq]
    simp [hzne]
  constructor
  · intro hpos
    have hne2 : mergedPage env { a with lastRequestId := z.RequestId, size := 1 } ≠ [] := by
      intro h; rw [h] at hpos; simp at hpos
    obtain ⟨r, hr, hc⟩ := hiff.mp hne2
    exact ⟨r, hr, by rw [← hcur]; exact hc⟩
  · rintro ⟨r, hr, hb⟩
    have hne2 := hiff.mpr ⟨r, hr, by show cursorCondition z.RequestId a.reverse r = true; rw [hcur]; exact hb⟩
    exact List.length_pos.mpr hne2

theorem ListAccessLogs_unfold (env : SearchEnv) (a : SearchArgs)
    (hday : a.day.utf8ByteSize = 8) :
    ListAccessLogs env a =
      if (listAccessLogs env { a with size := if a.size > 1000 then 1000 else a.size }).2.2 ≠ none
          ∨ ((listAccessLogs env
              { a with size := if a.size > 1000 then 1000 else a.size }).1.length : Int)
            < (if a.size > 1000 then 1000 else a.size) then
        ((listAccessLogs env { a with size := if a.size > 1000 then 1000 else a.size }).1,
         (listAccessLogs env { a with size := if a.size > 1000 then 1000 else a.size }).2.1,
         false,
         (listAccessLogs env { a with size := if a.size > 1000 then 1000 else a.size }).2.2)
      else
        ((listAccessLogs env { a with size := if a.size > 1000 then 1000 else a.size }).1,
         (listAccessLogs env { a with size := if a.size > 1000 then 1000 else a.size }).2.1,
         decide ((listAccessLogs env
            { a with
              lastRequestId :=
                (listAccessLogs env
                  { a with size := if a.size > 1000 then 1000 else a.size }).2.1,
              size := 1 }).1.length > 0),
         (listAccessLogs env { a with size := if a.size > 1000 then 1000 else a.size }).2.2) := by
  unfold ListAccessLogs
  rw [if_neg (by simp [hday])]

/-- C8 (counterexample). (a) One node holds the 1001 request ids `2024011510000000` to
`2024011510001000` and a forward search asks for a page of 1001 rows: the page size
is capped at 1000 (lines 254-256), so the page holds 1000 rows, fewer than the
requested size, its cursor is `...0001`, `hasMore` is `true` and the row `...0000`
lies beyond the page. (b) One stored row with an empty request id, page size 1,
forward search: the page is full, the next cursor is the empty string, and the
look-ahead query, for which an empty cursor is no bound (line 475), finds the same
row again. `hasMore` is `true` although no row has a request id below the next
cursor. -/
theorem short_page_with_hasMore_and_hasMore_without_row_beyond :
    ((sampleArgs "" 1001 false).day.utf8ByteSize = 8
      ∧ everyShardAnswers manyRowsEnv (sampleArgs "" 1001 false) = true
      ∧ ((ListAccessLogs manyRowsEnv (sampleArgs "" 1001 false)).1.length : Int)
          < (sampleArgs "" 1001 false).size
      ∧ (ListAccessLogs manyRowsEnv (sampleArgs "" 1001 false)).2.1 = "2024011510000001"
      ∧ (ListAccessLogs manyRowsEnv (sampleArgs "" 1001 false)).2.2.1 = true
      ∧ sampleRow "2024011510000000" ∈ allMatchingRows manyRowsEnv (sampleArgs "" 1001 false))
    ∧ ((sampleArgs "" 1 false).day.utf8ByteSize = 8
      ∧ everyShardAnswers (sampleEnv [sampleShard [""]]) (sampleArgs "" 1 false) = true
      ∧ ListAccessLogs (sampleEnv [sampleShard [""]]) (sampleArgs "" 1 false)
          = ([sampleRow ""], "", true, none)
      ∧ ¬ ∃ r ∈ allMatchingRows (sampleEnv [sampleShard [""]]) (sampleArgs "" 1 false),
          beyondCursor (ListAccessLogs (sampleEnv [sampleShard [""]]) (sampleArgs "" 1 false)).2.1
            false r = true) :=
  ⟨by decide!, by decide⟩

/-- The search by request id from a cursor and the search by a host pattern over two
nodes, seen through the look-ahead: where the cursor clause rebinds the parameter of
the keyword group, and
where a task rewrites the shared variable `domain`, `ListAccessLogs` reports
`hasMore = false` although a row that matches the filters of the request lies
beyond the returned cursor. -/
theorem hasMore_false_with_matching_row_beyond :
    (longIdArgs.day.utf8ByteSize = 8
      ∧ ListAccessLogs longIdEnv longIdArgs = ([], "20240115100000000009", false, none)
      ∧ sampleRow "20240115100000000002" ∈ allMatchingRows longIdEnv longIdArgs
      ∧ beyondCursor "20240115100000000009" false (sampleRow "20240115100000000002") = true
      ∧ ¬ keywordIgnoresCursor longIdEnv longIdArgs.keyword)
    ∧ (wildcardArgs.day.utf8ByteSize = 8
      ∧ ListAccessLogs twoHostsEnv wildcardArgs
          = ([hostRow "2024011510000003" "a.example.com"], "2024011510000003", false, none)
      ∧ hostRow "2024011510000002" "b.example.com" ∈ allMatchingRows twoHostsEnv wildcardArgs
      ∧ beyondCursor "2024011510000003" false (hostRow "2024011510000002" "b.example.com") = true
      ∧ sharedTextsKept twoHostsEnv wildcardArgs = false) := by
  refine ⟨⟨by decide, by decide, by decide, by decide, ?_⟩, by decide⟩
  intro h
  exact absurd (h (some "20240115100000000009") true (sampleRow "20240115100000000002"))
    (by decide)

/-- C8 (amended). For a day of 8 bytes, a requested page size of at least 1, every node
answering and no stored request id empty, in a search whose keyword predicate does
not read the cursor parameter and whose tasks leave the shared texts `domain` and
`keyword` as they are, `ListAccessLogs` returns `hasMore = true` if and only if some
row of some node that matches the filters of the request has a request id strictly
beyond the returned next cursor in the scan direction; and a page shorter than the
effective page size `min(size, 1000)` has `hasMore = false` and no matching row
beyond it. With unique request ids each of the two searches of `ListAccessLogs`
returns the same page and cursor in whatever order it visits the registry
(`listAccessLogs_reordered`). -/
theorem hasMore_iff_matching_row_beyond_next_cursor (env : SearchEnv) (a : SearchArgs)
    (hday : a.day.utf8ByteSize = 8) (hsize : 1 ≤ a.size)
    (hans : everyShardAnswers env a = true)
    (hid : ∀ r ∈ allRows env a.day, r.RequestId ≠ "")
    (hind : keywordIgnoresCursor env a.keyword) (hkeep : sharedTextsKept env a = true) :
    ((ListAccessLogs env a).2.2.1 = true ↔
        ∃ r ∈ allMatchingRows env a, beyondCursor (ListAccessLogs env a).2.1 a.reverse r = true)
    ∧ (((ListAccessLogs env a).1.length : Int) < min a.size 1000 →
        (ListAccessLogs env a).2.2.1 = false
        ∧ ¬ ∃ r ∈ allMatchingRows env a,
            beyondCursor (ListAccessLogs env a).2.1 a.reverse r = true) := by
  have hmin : (if a.size > 1000 then (1000 : Int) else a.size) = min a.size 1000 := by
    split <;> omega
  have hans1 : everyShardAnswers env
      { a with size := if a.size > 1000 then 1000 else a.size } = true := hans
  have hk1 : (1 : Int) ≤ (if a.size > 1000 then 1000 else a.size) := by
    rw [hmin]; omega
  have hkeep1 : sharedTextsKept env
      { a with size := if a.size > 1000 then 1000 else a.size } = true :=
    sharedTextsKept_cursor hkeep a.lastRequestId _ a.reverse
  have heq1 := listAccessLogs_eq hans1 hind hkeep1
    (by show (0 : Int) < (if a.size > 1000 then 1000 else a.size); omega)
  have herr : (listAccessLogs env
      { a with size := if a.size > 1000 then 1000 else a.size }).2.2 = none := by
    rw [heq1]
  have hlen : (listAccessLogs env
      { a with size := if a.size > 1000 then 1000 else a.size }).1.length
      = (mergedPage env { a with size := if a.size > 1000 then 1000 else a.size }).length := by
    rw [heq1]
    dsimp only
    split
    · rw [List.length_reverse]
    · rfl
  have hiff : (ListAccessLogs env a).2.2.1 = true ↔
      ∃ r ∈ allMatchingRows env a, beyondCursor (ListAccessLogs env a).2.1 a.reverse r = true := by
    rw [ListAccessLogs_unfold env a hday]
    by_cases hshort : ((listAccessLogs env
        { a with size := if a.size > 1000 then 1000 else a.size }).1.length : Int)
          < (if a.size > 1000 then 1000 else a.size)
    · rw [if_pos (Or.inr hshort)]
      have hs2 : (mergedPage env
          { a with size := if a.size > 1000 then 1000 else a.size }).length
          < (if a.size > 1000 then (1000 : Int) else a.size).toNat := by
        rw [← hlen]; omega
      have hnone := nothing_beyond_short_page hans1 hind hkeep1 hk1 hs2
      constructor
      · intro h; exact absurd h (by simp)
      · intro h; exact absurd h hnone
    · have hcond : ¬ ((listAccessLogs env
          { a with size := if a.size > 1000 then 1000 else a.size }).2.2 ≠ none
          ∨ ((listAccessLogs env
              { a with size := if a.size > 1000 then 1000 else a.size }).1.length : Int)
            < (if a.size > 1000 then 1000 else a.size)) := by
        rintro (h | h)
        · exact h herr
        · exact hshort h
      rw [if_neg hcond]
      have hfull : ¬ (mergedPage env
          { a with size := if a.size > 1000 then 1000 else a.size }).length
          < (if a.size > 1000 then (1000 : Int) else a.size).toNat := by
        rw [← hlen]; omega
      have hprobe := probe_after_full_page hans1 hk1 hid hind hkeep1 hfull
      simp only [decide_eq_true_eq]
      exact hprobe
  refine ⟨hiff, ?_⟩
  intro hshort
  have hfalse : (ListAccessLogs env a).2.2.1 = false := by
    rw [ListAccessLogs_unfold env a hday]
    have hlp : (ListAccessLogs env a).1
        = (listAccessLogs env { a with size := if a.size > 1000 then 1000 else a.size }).1 := by
      rw [ListAccessLogs_page, if_neg (by simp [hday])]
    rw [hlp, ← hmin] at hshort
    rw [if_pos (Or.inr hshort)]
  refine ⟨hfalse, ?_⟩
  intro hex
  have := hiff.mpr hex
  rw [hfalse] at this
  exact Bool.false_ne_true this

theorem hasMore_iff_matching_row_beyond_next_cursor_witness :
    hostFilterArgs.day.utf8ByteSize = 8
    ∧ everyShardAnswers hostFilterEnv hostFilterArgs = true
    ∧ (∀ r ∈ allRows hostFilterEnv hostFilterArgs.day, r.RequestId ≠ "")
    ∧ keywordIgnoresCursor hostFilterEnv hostFilterArgs.keyword
    ∧ sharedTextsKept hostFilterEnv hostFilterArgs = true
    ∧ ListAccessLogs hostFilterEnv hostFilterArgs
        = ([hostRow "2024011510000003" "a.example.com",
            hostRow "2024011510000002" "a.example.com"], "2024011510000002", true, none)
    ∧ ∃ r ∈ allMatchingRows hostFilterEnv hostFilterArgs,
        beyondCursor (ListAccessLogs hostFilterEnv hostFilterArgs).2.1
          hostFilterArgs.reverse r = true :=
  ⟨by decide, by decide, by decide, fun _ _ _ => rfl, by decide, by decide,
    (hasMore_iff_matching_row_beyond_next_cursor hostFilterEnv hostFilterArgs
      (by decide) (by decide) (by decide) (by decide) (fun _ _ _ => rfl) (by decide)).1.mp
      (by decide)⟩

/-! ## Theorems: paging forward twice, then backward -/

section Descending
variable {α κ : Type} [LinearOrder κ] (key : α → κ)

theorem filter_sortDesc (p : α → Bool) {l : List α} (hn : (l.map key).Nodup) :
    sortDesc key (l.filter p) = (sortDesc key l).filter p := by
  have hn2 : ((l.filter p).map key).Nodup := hn.sublist ((List.filter_sublist l).map key)
  haveI : IsAntisymm α (fun x y => key y < key x) :=
    ⟨fun _ _ h1 h2 => absurd h1 (not_lt_of_gt h2)⟩
  exact List.eq_of_perm_of_sorted
    ((sortDesc_perm key (l.filter p)).trans ((sortDesc_perm key l).symm.filter p))
    (sortDesc_pairwise_lt key hn2) ((sortDesc_pairwise_lt key hn).filter p)

theorem sortDesc_toDual {l : List α} (hn : (l.map key).Nodup) :
    sortDesc (fun x => OrderDual.toDual (key x)) l = (sortDesc key l).reverse := by
  have hn2 : (l.map (fun x => OrderDual.toDual (key x))).Nodup := by
    have := hn.map OrderDual.toDual.injective
    simpa [List.map_map, Function.comp_def] using this
  haveI : IsAntisymm α (fun x y => key x < key y) :=
    ⟨fun _ _ h1 h2 => absurd h1 (not_lt_of_gt h2)⟩
  have h1 : (sortDesc (fun x => OrderDual.toDual (key x)) l).Pairwise (fun x y => key x < key y) :=
    (sortDesc_pairwise_lt (fun x => OrderDual.toDual (key x)) hn2).imp (fun h => by simpa using h)
  have h2 : ((sortDesc key l).reverse).Pairwise (fun x y => key x < key y) :=
    List.pairwise_reverse.mpr (sortDesc_pairwise_lt key hn)
  exact List.eq_of_perm_of_sorted
    ((sortDesc_perm _ l).trans ((List.reverse_perm _).trans (sortDesc_perm key l)).symm) h1 h2

/-- In a strictly descending list, the rows with a key below that of `z` are the rows
after `z`. -/
theorem filter_below_of_descending {xs ys : List α} {z : α}
    (h : (xs ++ z :: ys).Pairwise (fun x y => key y < key x)) :
    (xs ++ z :: ys).filter (fun x => decide (key x < key z)) = ys := by
  obtain ⟨_, h2, h3⟩ := List.pairwise_append.mp h
  have hxs : xs.filter (fun x => decide (key x < key z)) = [] := by
    apply List.filter_eq_nil_iff.mpr
    intro x hx
    have := h3 x hx z (by simp)
    simp only [decide_eq_true_eq]
    exact not_lt_of_gt this
  have hys : ys.filter (fun x => decide (key x < key z)) = ys := by
    apply List.filter_eq_self.mpr
    intro y hy
    simpa using (List.pairwise_cons.mp h2).1 y hy
  rw [List.filter_append, hxs, List.filter_cons, hys]
  simp

/-- In a strictly descending list, the rows with a key above that of `z` are the rows
before `z`. -/
theorem filter_above_of_descending {xs ys : List α} {z : α}
    (h : (xs ++ z :: ys).Pairwise (fun x y => key y < key x)) :
    (xs ++ z :: ys).filter (fun x => decide (key z < key x)) = xs := by
  obtain ⟨_, h2, h3⟩ := List.pairwise_append.mp h
  have hxs : xs.filter (fun x => decide (key z < key x)) = xs := by
    apply List.filter_eq_self.mpr
    intro x hx
    simpa using h3 x hx z (by simp)
  have hys : ys.filter (fun x => decide (key z < key x)) = [] := by
    apply List.filter_eq_nil_iff.mpr
    intro y hy
    have := (List.pairwise_cons.mp h2).1 y hy
    simp only [decide_eq_true_eq]
    exact not_lt_of_gt this
  rw [List.filter_append, hxs, List.filter_cons, hys]
  simp

/-- A strictly descending list splits at a bound: the rows that are not below it come
first, the rows below it after them. -/
theorem filter_not_append_filter_of_descending (b : κ) :
    ∀ {l : List α}, l.Pairwise (fun x y => key y < key x) →
      l.filter (fun x => !decide (key x < b)) ++ l.filter (fun x => decide (key x < b)) = l := by
  intro l
  induction l with
  | nil => intro _; rfl
  | cons x l ih =>
    intro h
    obtain ⟨hx, hl⟩ := List.pairwise_cons.mp h
    by_cases hb : key x < b
    · have hall : ∀ y ∈ x :: l, decide (key y < b) = true := by
        intro y hy
        rcases List.mem_cons.mp hy with rfl | hy
        · simpa using hb
        · simpa using lt_trans (hx y hy) hb
      have h1 : (x :: l).filter (fun y => decide (key y < b)) = x :: l :=
        List.filter_eq_self.mpr hall
      have h2 : (x :: l).filter (fun y => !decide (key y < b)) = [] := by
        apply List.filter_eq_nil_iff.mpr
        intro y hy
        simp [hall y hy]
      rw [h1, h2, List.nil_append]
    · simp only [List.filter_cons, hb, decide_False, Bool.not_false, if_true,
        Bool.false_eq_true, if_false, List.cons_append]
      rw [ih hl]

/-- The pages as segments of one strictly descending list `D = W ++ X`: when the first
page is the first `k` rows of `X` and ends at `z1`, and the second page is the first
`k` rows below `z1` and ends at `z2`, then the last `k` rows above `z2` are the
first page without its first `m - 1` rows, followed by the second page without its
last row, `m` being the length of the second page. -/
theorem last_rows_above_second_cursor {D W X : List α}
    (hD : D.Pairwise (fun x y => key y < key x)) (hX : D = W ++ X) (k : Nat) {z1 z2 : α}
    (h1 : (X.take k).getLast? = some z1)
    (h2 : ((D.filter (fun x => decide (key x < key z1))).take k).getLast? = some z2) :
    ((D.filter (fun x => decide (key z2 < key x))).reverse.take k).reverse
      = (X.take k).drop (((D.filter (fun x => decide (key x < key z1))).take k).length - 1)
        ++ ((D.filter (fun x => decide (key x < key z1))).take k).dropLast := by
  obtain ⟨P1, hP1⟩ := List.getLast?_eq_some_iff.mp h1
  have hXs : X = (P1 ++ [z1]) ++ X.drop k := by rw [← hP1, List.take_append_drop]
  have hD1 : D = (W ++ P1) ++ z1 :: X.drop k := by
    rw [hX]
    conv_lhs => rw [hXs]
    simp
  have hR1 : D.filter (fun x => decide (key x < key z1)) = X.drop k := by
    have hp := hD
    rw [hD1] at hp
    conv_lhs => rw [hD1]
    exact filter_below_of_descending key hp
  rw [hR1] at h2 ⊢
  obtain ⟨P2, hP2⟩ := List.getLast?_eq_some_iff.mp h2
  have hR : X.drop k = (P2 ++ [z2]) ++ (X.drop k).drop k := by
    rw [← hP2, List.take_append_drop]
  have hD2 : D = (W ++ X.take k ++ P2) ++ z2 :: (X.drop k).drop k := by
    rw [hX]
    conv_lhs => rw [← List.take_append_drop k X, hR]
    simp
  have hY : D.filter (fun x => decide (key z2 < key x)) = W ++ X.take k ++ P2 := by
    have hp := hD
    rw [hD2] at hp
    conv_lhs => rw [hD2]
    exact filter_above_of_descending key hp
  have hlen1 : (X.take k).length = k := by
    have hne : X.drop k ≠ [] := by
      intro h
      rw [h] at hP2
      simp at hP2
    have : ¬ X.length ≤ k := fun h => hne (List.drop_eq_nil_iff.mpr h)
    rw [List.length_take]
    omega
  have hlen2 : P2.length + 1 ≤ k := by
    have := congrArg List.length hP2
    rw [List.length_take, List.length_append, List.length_singleton] at this
    omega
  rw [hY, hP2, List.dropLast_concat, List.length_append, List.length_singleton,
    Nat.add_sub_cancel, List.take_reverse, List.reverse_reverse]
  have hd : (W ++ X.take k ++ P2).length - k = W.length + P2.length := by
    simp only [List.length_append, hlen1]
    omega
  rw [hd, List.append_assoc, List.drop_append,
    List.drop_append_of_le_length (by rw [hlen1]; omega)]

end Descending

theorem nodup_keys_allMatchingRows {env : SearchEnv} {a : SearchArgs}
    (huniq : ((allRows env a.day).map (fun r => r.RequestId)).Nodup) :
    ((allMatchingRows env a).map (fun r => r.RequestId.toList)).Nodup :=
  nodup_keys_of_nodup_requestIds id Function.injective_id
    (allMatchingRows_sublist_allRows env a) huniq

/-- A forward page is the first `size` rows beyond the cursor of the descending list of
all matching rows. -/
theorem forward_page_eq {env : SearchEnv} {a : SearchArgs}
    (huniq : ((allRows env a.day).map (fun r => r.RequestId)).Nodup)
    (hans : everyShardAnswers env a = true) (hind : keywordIgnoresCursor env a.keyword)
    (hkeep : sharedTextsKept env a = true) (hfwd : a.reverse = false) (hk : 1 ≤ a.size) :
    (listAccessLogs env a).1 =
      ((sortDesc (fun r : HTTPAccessLog => r.RequestId.toList) (allMatchingRows env a)).filter
        (cursorCondition a.lastRequestId false)).take a.size.toNat := by
  have hpage : (listAccessLogs env a).1 = mergedPage env a := by
    rw [listAccessLogs_eq hans hind hkeep (by omega : 0 < a.size)]; simp [hfwd]
  rw [hpage, mergedPage_eq_global huniq, hfwd, sortSlice_forward,
    filter_sortDesc _ _ (nodup_keys_allMatchingRows huniq)]

/-- A backward page is the last `size` rows beyond the cursor of the descending list of
all matching rows, in that order. -/
theorem backward_page_eq {env : SearchEnv} {a : SearchArgs}
    (huniq : ((allRows env a.day).map (fun r => r.RequestId)).Nodup)
    (hans : everyShardAnswers env a = true) (hind : keywordIgnoresCursor env a.keyword)
    (hkeep : sharedTextsKept env a = true) (hbwd : a.reverse = true) (hk : 1 ≤ a.size) :
    (listAccessLogs env a).1 =
      (((sortDesc (fun r : HTTPAccessLog => r.RequestId.toList) (allMatchingRows env a)).filter
        (cursorCondition a.lastRequestId true)).reverse.take a.size.toNat).reverse := by
  have hpage : (listAccessLogs env a).1 = (mergedPage env a).reverse := by
    rw [listAccessLogs_eq hans hind hkeep (by omega : 0 < a.size)]; simp [hbwd]
  have hn := nodup_keys_allMatchingRows huniq
  have hn2 : (((allMatchingRows env a).filter (cursorCondition a.lastRequestId true)).map
      (fun r => r.RequestId.toList)).Nodup :=
    hn.sublist ((List.filter_sublist _).map _)
  rw [hpage, mergedPage_eq_global huniq, hbwd, sortSlice_backward,
    sortDesc_toDual (fun r : HTTPAccessLog => r.RequestId.toList) hn2,
    filter_sortDesc _ _ hn]

theorem cursorCondition_forward_of_ne {c : String} (hc : c ≠ "") :
    cursorCondition c false = fun x => decide (x.RequestId.toList < c.toList) := by
  funext x
  rw [cursorCondition_eq]
  simp [hc, beyondCursor]

theorem cursorCondition_backward_of_ne {c : String} (hc : c ≠ "") :
    cursorCondition c true = fun x => decide (c.toList < x.RequestId.toList) := by
  funext x
  rw [cursorCondition_eq]
  simp [hc, beyondCursor]

theorem next_cursor_of_forward_page {env : SearchEnv} {a : SearchArgs}
    (hans : everyShardAnswers env a = true) (hind : keywordIgnoresCursor env a.keyword)
    (hkeep : sharedTextsKept env a = true) (hfwd : a.reverse = false) (hk : 1 ≤ a.size)
    {z : HTTPAccessLog} (hz : (listAccessLogs env a).1.getLast? = some z) :
    (listAccessLogs env a).2.1 = z.RequestId := by
  have heq := listAccessLogs_eq hans hind hkeep (by omega : 0 < a.size)
  have hpage : (listAccessLogs env a).1 = mergedPage env a := by
    rw [heq]; simp [hfwd]
  rw [hpage] at hz
  rw [heq]
  simp only [hz]

/-- After an empty forward page the same search from the returned cursor is empty
again. -/
theorem secondPage_eq_nil_of_nil {env : SearchEnv} {a : SearchArgs}
    (hans : everyShardAnswers env a = true) (hind : keywordIgnoresCursor env a.keyword)
    (hkeep : sharedTextsKept env a = true) (hfwd : a.reverse = false) (hk : 1 ≤ a.size)
    (hnil : (listAccessLogs env a).1 = []) : secondPage env a = [] := by
  have heq := listAccessLogs_eq hans hind hkeep (by omega : 0 < a.size)
  have hpage : (listAccessLogs env a).1 = mergedPage env a := by
    rw [heq]; simp [hfwd]
  have hm : mergedPage env a = [] := by rw [← hpage]; exact hnil
  have hnext : (listAccessLogs env a).2.1 =
      if a.userId > 0 ∧ (env.serverIdsOfUser a.userId).length = 0 then "" else a.lastRequestId := by
    rw [heq]
    simp only [hm, List.getLast?_nil]
  unfold secondPage
  rw [hnext]
  by_cases hu : a.userId > 0 ∧ (env.serverIdsOfUser a.userId).length = 0
  · rw [if_pos hu]
    have hans2 : everyShardAnswers env { a with lastRequestId := "" } = true := hans
    have heq2 := listAccessLogs_eq hans2 hind (sharedTextsKept_cursor hkeep "" a.size a.reverse)
      (by show 0 < a.size; omega)
    have hm2 : mergedPage env { a with lastRequestId := "" } = [] := by
      apply List.eq_nil_iff_forall_not_mem.mpr
      intro r hr
      obtain ⟨w, _, hrw⟩ := mem_allMatchingRows.mp (mem_mergedPage hr).1
      have hu2 : ({ a with lastRequestId := "" } : SearchArgs).userId > 0 ∧
          (env.serverIdsOfUser ({ a with lastRequestId := "" } : SearchArgs).userId).length = 0 := hu
      rw [matchingRows_user_without_servers hu2] at hrw
      simp at hrw
    rw [heq2, hm2]
    simp
  · rw [if_neg hu]
    exact hnil

/-- C10 (counterexample). One node with the ids `...01` to `...05`, page size 2, empty
start cursor: the first forward page holds `...05` and `...04`, the second forward
page returns the cursor `...02`, and the backward search from that cursor returns
`...04` and `...03`. The row `...05` of the first page is not in it. -/
theorem backward_page_differs_from_first_page :
    ((allRows fiveRowsEnv (sampleArgs "" 2 false).day).map (fun r => r.RequestId)).Nodup
    ∧ (listAccessLogs fiveRowsEnv (sampleArgs "" 2 false)).1.map (fun r => r.RequestId)
        = ["2024011510000005", "2024011510000004"]
    ∧ secondCursor fiveRowsEnv (sampleArgs "" 2 false) = "2024011510000002"
    ∧ (backwardFromSecondCursor fiveRowsEnv (sampleArgs "" 2 false)).map (fun r => r.RequestId)
        = ["2024011510000004", "2024011510000003"]
    ∧ sampleRow "2024011510000005" ∈ (listAccessLogs fiveRowsEnv (sampleArgs "" 2 false)).1
    ∧ sampleRow "2024011510000005" ∉ backwardFromSecondCursor fiveRowsEnv (sampleArgs "" 2 false) := by
  decide

/-- C10 (amended). With unique, non-empty request ids and every node answering, in a
search whose keyword predicate does not read the cursor parameter and whose tasks
leave the shared texts `domain` and `keyword` as they are, let `P1` be the forward
page of size `k ≥ 1` from a start cursor and `P2` the forward page from the cursor of
`P1`, with `m ≥ 1` rows. The backward search of size `k` from
the cursor of `P2` returns the rows of `P1` without its first `m - 1` rows,
followed by the rows of `P2` without its last row. It returns `P1` itself when
`P2` has exactly one row. Each of the three searches returns the same page and cursor
in whatever order it visits the registry (`listAccessLogs_reordered`). -/
theorem backward_page_after_second_forward_page (env : SearchEnv) (a : SearchArgs)
    (huniq : ((allRows env a.day).map (fun r => r.RequestId)).Nodup)
    (hans : everyShardAnswers env a = true)
    (hid : ∀ r ∈ allRows env a.day, r.RequestId ≠ "")
    (hind : keywordIgnoresCursor env a.keyword) (hkeep : sharedTextsKept env a = true)
    (hfwd : a.reverse = false) (hk : 1 ≤ a.size) (hne : secondPage env a ≠ []) :
    backwardFromSecondCursor env a =
        (listAccessLogs env a).1.drop ((secondPage env a).length - 1)
          ++ (secondPage env a).dropLast
    ∧ ((secondPage env a).length = 1 →
        backwardFromSecondCursor env a = (listAccessLogs env a).1) := by
  have hDp := sortDesc_pairwise_lt (fun r : HTTPAccessLog => r.RequestId.toList)
    (nodup_keys_allMatchingRows huniq)
  have hP1 := forward_page_eq huniq hans hind hkeep hfwd hk
  -- the rows below the start cursor are a final segment of the descending list
  obtain ⟨W, hW⟩ : ∃ W, sortDesc (fun r : HTTPAccessLog => r.RequestId.toList)
      (allMatchingRows env a) = W ++
        (sortDesc (fun r : HTTPAccessLog => r.RequestId.toList) (allMatchingRows env a)).filter
          (cursorCondition a.lastRequestId false) := by
    by_cases hc : a.lastRequestId = ""
    · refine ⟨[], ?_⟩
      have : ∀ x ∈ sortDesc (fun r : HTTPAccessLog => r.RequestId.toList)
          (allMatchingRows env a), cursorCondition a.lastRequestId false x = true := by
        intro x _
        rw [cursorCondition_eq]
        simp [hc]
      rw [List.filter_eq_self.mpr this, List.nil_append]
    · refine ⟨(sortDesc (fun r : HTTPAccessLog => r.RequestId.toList)
        (allMatchingRows env a)).filter
          (fun x => !decide (x.RequestId.toList < a.lastRequestId.toList)), ?_⟩
      rw [cursorCondition_forward_of_ne hc]
      exact (filter_not_append_filter_of_descending
        (fun r : HTTPAccessLog => r.RequestId.toList) a.lastRequestId.toList hDp).symm
  -- the first page is not empty and ends at `z1`
  obtain ⟨z1, hz1⟩ : ∃ z1, (listAccessLogs env a).1.getLast? = some z1 := by
    cases hl : (listAccessLogs env a).1.getLast? with
    | none =>
      exact absurd
        (secondPage_eq_nil_of_nil hans hind hkeep hfwd hk (List.getLast?_eq_none_iff.mp hl)) hne
    | some z => exact ⟨z, rfl⟩
  have hnext1 := next_cursor_of_forward_page hans hind hkeep hfwd hk hz1
  have hz1mem : z1 ∈ allMatchingRows env a := by
    have h1 : z1 ∈ (listAccessLogs env a).1 := List.mem_of_getLast?_eq_some hz1
    rw [hP1] at h1
    exact (sortDesc_perm _ _).subset (List.mem_of_mem_filter (List.mem_of_mem_take h1))
  have hz1ne : z1.RequestId ≠ "" := hid z1 (allMatchingRows_subset_allRows hz1mem)
  -- the second page
  have hans2 : everyShardAnswers env { a with lastRequestId := z1.RequestId } = true := hans
  have hkeep2 : sharedTextsKept env { a with lastRequestId := z1.RequestId } = true :=
    sharedTextsKept_cursor hkeep z1.RequestId a.size a.reverse
  have hP2 : secondPage env a =
      ((sortDesc (fun r : HTTPAccessLog => r.RequestId.toList) (allMatchingRows env a)).filter
        (fun x => decide (x.RequestId.toList < z1.RequestId.toList))).take a.size.toNat := by
    unfold secondPage
    rw [hnext1, ← cursorCondition_forward_of_ne hz1ne]
    exact @forward_page_eq env { a with lastRequestId := z1.RequestId } huniq hans2 hind hkeep2
      hfwd hk
  obtain ⟨z2, hz2⟩ : ∃ z2, (secondPage env a).getLast? = some z2 := by
    cases hl : (secondPage env a).getLast? with
    | none => exact absurd (List.getLast?_eq_none_iff.mp hl) hne
    | some z => exact ⟨z, rfl⟩
  have hnext2 : secondCursor env a = z2.RequestId := by
    unfold secondCursor
    unfold secondPage at hz2
    rw [hnext1] at hz2 ⊢
    exact @next_cursor_of_forward_page env { a with lastRequestId := z1.RequestId }
      hans2 hind hkeep2 hfwd hk z2 hz2
  have hz2mem : z2 ∈ allMatchingRows env a := by
    have h1 : z2 ∈ secondPage env a := List.mem_of_getLast?_eq_some hz2
    rw [hP2] at h1
    exact (sortDesc_perm _ _).subset (List.mem_of_mem_filter (List.mem_of_mem_take h1))
  have hz2ne : z2.RequestId ≠ "" := hid z2 (allMatchingRows_subset_allRows hz2mem)
  -- the backward page
  have hans3 : everyShardAnswers env
      { a with lastRequestId := z2.RequestId, reverse := true } = true := hans
  have hB : backwardFromSecondCursor env a =
      (((sortDesc (fun r : HTTPAccessLog => r.RequestId.toList) (allMatchingRows env a)).filter
        (fun x => decide (z2.RequestId.toList < x.RequestId.toList))).reverse.take
          a.size.toNat).reverse := by
    unfold backwardFromSecondCursor
    rw [hnext2, ← cursorCondition_backward_of_ne hz2ne]
    exact @backward_page_eq env { a with lastRequestId := z2.RequestId, reverse := true }
      huniq hans3 hind (sharedTextsKept_cursor hkeep z2.RequestId a.size true) rfl hk
  have hmain := last_rows_above_second_cursor (fun r : HTTPAccessLog => r.RequestId.toList)
    hDp hW a.size.toNat (by rw [← hP1]; exact hz1) (by rw [← hP2]; exact hz2)
  rw [← hB, ← hP1, ← hP2] at hmain
  refine ⟨hmain, ?_⟩
  intro hone
  rw [hmain, hone]
  have hdl : (secondPage env a).dropLast = [] := by
    apply List.length_eq_zero.mp
    rw [List.length_dropLast, hone]
  rw [hdl]
  simp

theorem backward_page_after_second_forward_page_witness :
    ((allRows fiveRowsEnv (sampleArgs "" 2 false).day).map (fun r => r.RequestId)).Nodup
    ∧ everyShardAnswers fiveRowsEnv (sampleArgs "" 2 false) = true
    ∧ (∀ r ∈ allRows fiveRowsEnv (sampleArgs "" 2 false).day, r.RequestId ≠ "")
    ∧ keywordIgnoresCursor fiveRowsEnv (sampleArgs "" 2 false).keyword
    ∧ sharedTextsKept fiveRowsEnv (sampleArgs "" 2 false) = true
    ∧ secondPage fiveRowsEnv (sampleArgs "" 2 false) ≠ []
    ∧ backwardFromSecondCursor fiveRowsEnv (sampleArgs "" 2 false) =
        (listAccessLogs fiveRowsEnv (sampleArgs "" 2 false)).1.drop
            ((secondPage fiveRowsEnv (sampleArgs "" 2 false)).length - 1)
          ++ (secondPage fiveRowsEnv (sampleArgs "" 2 false)).dropLast :=
  ⟨by decide, by decide, by decide, fun _ _ _ => rfl, by decide, by decide,
    (backward_page_after_second_forward_page fiveRowsEnv (sampleArgs "" 2 false)
      (by decide) (by decide) (by decide) (fun _ _ _ => rfl) (by decide) rfl (by decide)
      (by decide)).1⟩

/-! ## Theorems: lookup by request id -/

theorem take_all_iff_le_takeWhile {α : Type} (p : α → Bool) :
    ∀ (n : Nat) (l : List α),
      ((l.take n).length = n ∧ (l.take n).all p = true) ↔ n ≤ (l.takeWhile p).length := by
  intro n
  induction n with
  | zero => intro l; simp
  | succ n ih =>
    intro l
    cases l with
    | nil => simp
    | cons x xs =>
      by_cases hx : p x = true
      · simp only [List.take_succ_cons, List.length_cons, Nat.add_right_cancel_iff, List.all_cons,
          hx, Bool.true_and, List.takeWhile_cons, if_true, Nat.add_le_add_iff_right]
        exact ih xs
      · simp [List.takeWhile_cons, hx]

theorem matchesLeadingDigits_iff (requestId : String) :
    matchesLeadingDigits requestId = true ↔ 11 ≤ leadingDigits requestId := by
  unfold matchesLeadingDigits leadingDigits
  rw [Bool.and_eq_true, decide_eq_true_eq]
  exact take_all_iff_le_takeWhile Char.isDigit 11 requestId.toList

/-- C12. `FindAccessLogWithRequestId` returns a non-nil error exactly when `requestId`
does not begin with at least 11 decimal digits; it then returns no record and has
read neither the registry nor any node. An id that begins with 11 or more digits
passes the validation whatever follows them: the error is `nil` and the registry is
read. -/
theorem find_rejects_exactly_ids_without_11_leading_digits (lib : Lib) (env : SearchEnv)
    (requestId : String) :
    ((FindAccessLogWithRequestId lib env requestId).err ≠ none ↔ ¬ 11 ≤ leadingDigits requestId)
    ∧ (¬ 11 ≤ leadingDigits requestId →
        FindAccessLogWithRequestId lib env requestId = ⟨none, some "invalid requestId", []⟩)
    ∧ (11 ≤ leadingDigits requestId →
        (FindAccessLogWithRequestId lib env requestId).err = none
        ∧ (FindAccessLogWithRequestId lib env requestId).reads.head? = some ReadEvent.readRegistry) := by
  by_cases hv : 11 ≤ leadingDigits requestId
  · have hm : matchesLeadingDigits requestId = true := (matchesLeadingDigits_iff requestId).mpr hv
    have hrun : (FindAccessLogWithRequestId lib env requestId).err = none
        ∧ (FindAccessLogWithRequestId lib env requestId).reads.head? = some ReadEvent.readRegistry := by
      unfold FindAccessLogWithRequestId
      simp [hm]
    refine ⟨?_, fun h => absurd hv h, fun _ => hrun⟩
    constructor
    · intro h; exact absurd hrun.1 h
    · intro h; exact absurd hv h
  · have hm : matchesLeadingDigits requestId = false := by
      cases h : matchesLeadingDigits requestId with
      | false => rfl
      | true => exact absurd ((matchesLeadingDigits_iff requestId).mp h) hv
    have hrun : FindAccessLogWithRequestId lib env requestId
        = ⟨none, some "invalid requestId", []⟩ := by
      unfold FindAccessLogWithRequestId
      simp [hm]
    refine ⟨?_, fun _ => hrun, fun h => absurd h hv⟩
    constructor
    · intro _; exact hv
    · intro _; rw [hrun]; simp

/-- The row found by a node task is a row of the node's table with the id asked for. -/
theorem findTaskOne_some {day requestId : String} {w : HTTPAccessLogDAOWrapper}
    {one : HTTPAccessLog} (h : findTaskOne day requestId w = some one) :
    ∃ t, w.tables day = some t ∧ one ∈ t.rows ∧ one.RequestId = requestId := by
  unfold findTaskOne at h
  cases h1 : w.tableLookupError with
  | some e => rw [h1] at h; simp at h
  | none =>
    rw [h1] at h
    cases h2 : w.tables day with
    | none => rw [h2] at h; simp at h
    | some t =>
      rw [h2] at h
      cases h3 : w.queryError with
      | some e => rw [h3] at h; simp at h
      | none =>
        rw [h3] at h
        dsimp only at h
        refine ⟨t, rfl, List.mem_of_find?_eq_some h, ?_⟩
        have := List.find?_some h
        simpa using this

theorem find_fold_keeps {day requestId : String} {r : HTTPAccessLog} :
    ∀ (ws : List HTTPAccessLogDAOWrapper) (acc : Option HTTPAccessLog),
      (∀ w ∈ ws, ∀ one, findTaskOne day requestId w = some one → one = r) →
      acc = some r →
      ws.foldl (fun result w =>
        match findTaskOne day requestId w with
        | some one => some one
        | none => result) acc = some r := by
  intro ws
  induction ws with
  | nil => intro acc _ h; exact h
  | cons w ws ih =>
    intro acc honly hacc
    simp only [List.foldl_cons]
    apply ih _ (fun w2 hw2 => honly w2 (List.mem_cons_of_mem _ hw2))
    cases hone : findTaskOne day requestId w with
    | none => exact hacc
    | some one => rw [honly w (List.mem_cons_self _ _) one hone]

theorem find_fold_finds {day requestId : String} {r : HTTPAccessLog} :
    ∀ (ws : List HTTPAccessLogDAOWrapper) (acc : Option HTTPAccessLog),
      (∀ w ∈ ws, ∀ one, findTaskOne day requestId w = some one → one = r) →
      (∃ w ∈ ws, findTaskOne day requestId w = some r) →
      ws.foldl (fun result w =>
        match findTaskOne day requestId w with
        | some one => some one
        | none => result) acc = some r := by
  intro ws
  induction ws with
  | nil => intro acc _ h; obtain ⟨w, hw, _⟩ := h; simp at hw
  | cons w ws ih =>
    intro acc honly hex
    simp only [List.foldl_cons]
    have honly2 : ∀ w2 ∈ ws, ∀ one, findTaskOne day requestId w2 = some one → one = r :=
      fun w2 hw2 => honly w2 (List.mem_cons_of_mem _ hw2)
    obtain ⟨v, hv, hfound⟩ := hex
    rcases List.mem_cons.mp hv with h | h
    · subst h
      rw [hfound]
      exact find_fold_keeps ws _ honly2 rfl
    · exact ih _ honly2 ⟨v, h, hfound⟩

/-- C11 (counterexample). In the scenario of the specification the id `2024011510000002`
is held by shard B alone, in its partition of day `20240115`. The lookup reads the
first ten digits as the Unix time 2024011510, which falls on 20 February 2034 (UTC),
resolves the partition of that day on both shards and returns no record. -/
theorem find_misses_record_of_day_spelled_by_id :
    sampleRow "2024011510000002" ∈ allRows scenarioEnv "20240115"
    ∧ dayOfRequestId utcLib "2024011510000002" = "20340220"
    ∧ FindAccessLogWithRequestId utcLib scenarioEnv "2024011510000002"
        = ⟨none, none, [ReadEvent.readRegistry, ReadEvent.findTableName 1 "20340220",
            ReadEvent.findTableName 1 "20340220"]⟩ := by
  decide

/-- C11 (amended). For every request id that begins with at least 11 decimal digits and
is stored, as the only row with that id, in the partition of the day on which the
Unix time written by its first 10 digits falls, on a node that answers,
`FindAccessLogWithRequestId` resolves that day's partition on every node and returns
that record with a `nil` error. -/
theorem find_returns_record_of_timestamp_day (lib : Lib) (env : SearchEnv) (requestId : String)
    (w : HTTPAccessLogDAOWrapper) (t : DayTable) (r : HTTPAccessLog)
    (hvalid : 11 ≤ leadingDigits requestId)
    (hw : w ∈ daoList env) (hlookup : w.tableLookupError = none) (hquery : w.queryError = none)
    (ht : w.tables (dayOfRequestId lib requestId) = some t)
    (hr : r ∈ t.rows) (hrid : r.RequestId = requestId)
    (honly : ∀ w2 ∈ daoList env, ∀ t2, w2.tables (dayOfRequestId lib requestId) = some t2 →
      ∀ r2 ∈ t2.rows, r2.RequestId = requestId → r2 = r) :
    (FindAccessLogWithRequestId lib env requestId).record = some r
    ∧ (FindAccessLogWithRequestId lib env requestId).err = none
    ∧ ∀ w2 ∈ daoList env, ReadEvent.findTableName w2.NodeId (dayOfRequestId lib requestId)
        ∈ (FindAccessLogWithRequestId lib env requestId).reads := by
  have hm : matchesLeadingDigits requestId = true := (matchesLeadingDigits_iff requestId).mpr hvalid
  have honly2 : ∀ w2 ∈ daoList env, ∀ one,
      findTaskOne (dayOfRequestId lib requestId) requestId w2 = some one → one = r := by
    intro w2 hw2 one hone
    obtain ⟨t2, ht2, hmem, hid⟩ := findTaskOne_some hone
    exact honly w2 hw2 t2 ht2 one hmem hid
  have hfound : findTaskOne (dayOfRequestId lib requestId) requestId w = some r := by
    cases hone : findTaskOne (dayOfRequestId lib requestId) requestId w with
    | some one => rw [honly2 w hw one hone]
    | none =>
      unfold findTaskOne at hone
      rw [hlookup, ht, hquery] at hone
      dsimp only at hone
      have := List.find?_eq_none.mp hone r hr
      simp [hrid] at this
  unfold FindAccessLogWithRequestId
  rw [hm]
  dsimp only
  refine ⟨find_fold_finds _ _ honly2 ⟨w, hw, hfound⟩, rfl, ?_⟩
  intro w2 hw2
  apply List.mem_cons_of_mem
  apply List.mem_flatMap.mpr
  refine ⟨w2, hw2, ?_⟩
  unfold findTaskReads
  cases w2.tableLookupError with
  | some e => simp
  | none =>
    cases w2.tables (dayOfRequestId lib requestId) with
    | none => simp
    | some t2 => simp

theorem find_returns_record_of_timestamp_day_witness :
    11 ≤ leadingDigits "17053128000000002"
    ∧ sampleShard ["17053128000000002"] ∈ daoList timestampIdEnv
    ∧ dayOfRequestId utcLib "17053128000000002" = "20240115"
    ∧ FindAccessLogWithRequestId utcLib timestampIdEnv "17053128000000002"
        = ⟨some (sampleRow "17053128000000002"), none,
            [ReadEvent.readRegistry,
             ReadEvent.findTableName 1 "20240115", ReadEvent.query 1 "20240115" "17053128000000002",
             ReadEvent.findTableName 1 "20240115", ReadEvent.query 1 "20240115" "17053128000000002"]⟩
    ∧ (FindAccessLogWithRequestId utcLib timestampIdEnv "17053128000000002").record
        = some (sampleRow "17053128000000002") :=
  ⟨by decide, by simp [daoList, timestampIdEnv, sampleEnv], by decide, by decide,
    (find_returns_record_of_timestamp_day utcLib timestampIdEnv "17053128000000002"
      (sampleShard ["17053128000000002"])
      ⟨true, true, [sampleRow "17053128000000002"]⟩ (sampleRow "17053128000000002")
      (by decide) (by simp [daoList, timestampIdEnv, sampleEnv]) rfl rfl (by decide)
      (by simp) rfl
      (by
        intro w2 hw2 t2 ht2 r2 hr2 hid2
        have hday : dayOfRequestId utcLib "17053128000000002" = "20240115" := by decide
        rw [hday] at ht2
        have hmem : w2 = sampleShard ["17053128000000001", "17053128000000003"]
            ∨ w2 = sampleShard ["17053128000000002"] := by
          simpa [daoList, timestampIdEnv, sampleEnv] using hw2
        rcases hmem with h | h
        · subst h
          have ht3 : t2 = ⟨true, true, [sampleRow "17053128000000001",
              sampleRow "17053128000000003"]⟩ := by
            simpa [sampleShard] using ht2.symm
          subst ht3
          have hr3 : r2 = sampleRow "17053128000000001" ∨ r2 = sampleRow "17053128000000003" := by
            simpa using hr2
          rcases hr3 with h3 | h3 <;> subst h3 <;> exact absurd hid2 (by decide)
        · subst h
          have ht3 : t2 = ⟨true, true, [sampleRow "17053128000000002"]⟩ := by
            simpa [sampleShard] using ht2.symm
          subst ht3
          simpa using hr2)).1⟩

/-! ## Theorems: day validation and queue settings -/

/-- C13 (counterexample). A day of four characters is answered with an empty page and a
`nil` error, not with a validation error; and the day `2024011x`, 8 characters that
are not all digits, reaches the nodes: the row of the table registered under that
text is returned. -/
theorem malformed_day_without_error_or_with_fan_out :
    ListAccessLogs scenarioEnv { sampleArgs "" 2 false with day := "2024" }
        = ([], "", false, none)
    ∧ ListAccessLogs (sampleEnv [oddDayShard]) { sampleArgs "" 2 false with day := "2024011x" }
        = ([sampleRow "1"], "1", false, none) := by
  decide

/-- C13 (amended). For every day argument whose length is not 8 bytes, `ListAccessLogs`
returns an empty page, an empty cursor, `hasMore = false` and a `nil` error,
whatever the registry and the nodes hold: no node is consulted. Every day argument
of 8 bytes, decimal digits or not, reaches the fan-out: the page, the cursor and
the error are those of `listAccessLogs` with the capped size. -/
theorem day_length_is_the_only_check (env : SearchEnv) (a : SearchArgs) :
    (a.day.utf8ByteSize ≠ 8 → ListAccessLogs env a = ([], "", false, none))
    ∧ (a.day.utf8ByteSize = 8 →
        (ListAccessLogs env a).1
          = (listAccessLogs env { a with size := if a.size > 1000 then 1000 else a.size }).1
        ∧ (ListAccessLogs env a).2.1
          = (listAccessLogs env { a with size := if a.size > 1000 then 1000 else a.size }).2.1
        ∧ (ListAccessLogs env a).2.2.2
          = (listAccessLogs env { a with size := if a.size > 1000 then 1000 else a.size }).2.2) := by
  constructor
  · intro hd
    unfold ListAccessLogs
    rw [if_pos hd]
  · intro hd
    rw [ListAccessLogs_unfold env a hd]
    split_ifs <;> exact ⟨rfl, rfl, rfl⟩

/-- C14 (code at the failing input). In the initial state the queue has 10000 slots
while `accessLogQueueMaxLength` is 100000. The first settings blob, with
`maxLength = 0`, is applied (percent and countPerSecond take its values), but the
effective length 100000 equals the variable, so the queue is not replaced and keeps
10000 slots. -/
theorem initial_queue_keeps_10000_slots :
    sampleUnmarshalDefault "default" = .ok ⟨0, 5000, 50⟩
    ∧ (SetupQueue (.ok "default") sampleUnmarshalDefault QueueState.init).accessLogConfigJSON
        = "default"
    ∧ (SetupQueue (.ok "default") sampleUnmarshalDefault QueueState.init).accessLogQueuePercent = 50
    ∧ (SetupQueue (.ok "default") sampleUnmarshalDefault QueueState.init).accessLogCountPerSecond
        = 5000
    ∧ (SetupQueue (.ok "default") sampleUnmarshalDefault QueueState.init).accessLogQueueMaxLength
        = 100000
    ∧ (SetupQueue (.ok "default") sampleUnmarshalDefault QueueState.init).accessLogQueue.cap
        = 10000 :=
  ⟨rfl, by decide⟩

/-! ## Theorems: persistence failures -/

/-- `CreateHTTPAccessLog` after the table was resolved and the record serialised. -/
theorem CreateHTTPAccessLog_after_marshal {W : Type} (lib : Lib) (dao : HTTPAccessLogDAO W)
    (w w1 : W) (a : pb.HTTPAccessLog) (tableDef : httpAccessLogDefinition) (content : String)
    (hfind : dao.findHTTPAccessLogTable w (lib.formatDay a.Timestamp) false = (.ok tableDef, w1))
    (hm : lib.jsonMarshal { a with RequestBody := [] } = .ok content) :
    CreateHTTPAccessLog lib dao w a =
      match dao.Insert w1 tableDef.Name (insertFields a tableDef content) with
      | (none, w2) => (none, w2)
      | (some err, w2) =>
        if stringsContains err "1146" then
          match dao.findHTTPAccessLogTable w2 (lib.formatDay a.Timestamp) true with
          | (.error err2, w3) => (some err2, w3)
          | (.ok tableDef2, w3) =>
            match dao.Insert w3 tableDef2.Name (insertFields a tableDef content) with
            | (some err3, w4) => (some err3, w4)
            | (none, w4) => (none, w4)
        else (none, w2) := by
  unfold CreateHTTPAccessLog
  simp only [hfind, hm]
  rfl

/-- An insert error that does not contain `1146` is not returned. -/
theorem CreateHTTPAccessLog_other_insert_error {W : Type} (lib : Lib) (dao : HTTPAccessLogDAO W)
    (w w1 w2 : W) (a : pb.HTTPAccessLog) (tableDef : httpAccessLogDefinition) (content e : String)
    (hfind : dao.findHTTPAccessLogTable w (lib.formatDay a.Timestamp) false = (.ok tableDef, w1))
    (hm : lib.jsonMarshal { a with RequestBody := [] } = .ok content)
    (hins : dao.Insert w1 tableDef.Name (insertFields a tableDef content) = (some e, w2))
    (he : stringsContains e "1146" = false) :
    CreateHTTPAccessLog lib dao w a = (none, w2) := by
  rw [CreateHTTPAccessLog_after_marshal lib dao w w1 a tableDef content hfind hm, hins]
  simp [he]

/-- C16 (counterexample). The first insert fails with a duplicate-key error, which does
not contain `1146`: `CreateHTTPAccessLog` has tried one insert and returns `nil`,
not the failure. -/
theorem other_insert_failure_is_not_returned :
    duplicateKeyDAO.Insert 0 "edgeHTTPAccessLogs_20240115"
        (insertFields (sampleLog "a" 0) ⟨"edgeHTTPAccessLogs_20240115", true, true⟩ "a")
      = (some "Error 1062: Duplicate entry", 1)
    ∧ stringsContains "Error 1062: Duplicate entry" "1146" = false
    ∧ CreateHTTPAccessLog sampleLib duplicateKeyDAO 0 (sampleLog "a" 0) = (none, 1) := by
  decide

/-- C16 (amended). Once the table is resolved and the record serialised: a first insert
that succeeds ends the call; a first insert that fails with an error whose text
does not contain `1146` is not retried, and `CreateHTTPAccessLog` returns `nil` with
the database as that insert left it (the failure is logged only); only an error
that contains `1146` leads to resolving the table with `force = true` and, when
that succeeds, to exactly one more insert of the same fields, whose outcome is what
the call returns. -/
theorem create_retries_only_after_missing_table {W : Type} (lib : Lib) (dao : HTTPAccessLogDAO W)
    (w w1 : W) (a : pb.HTTPAccessLog) (tableDef : httpAccessLogDefinition) (content : String)
    (hfind : dao.findHTTPAccessLogTable w (lib.formatDay a.Timestamp) false = (.ok tableDef, w1))
    (hm : lib.jsonMarshal { a with RequestBody := [] } = .ok content) :
    (∀ w2, dao.Insert w1 tableDef.Name (insertFields a tableDef content) = (none, w2) →
        CreateHTTPAccessLog lib dao w a = (none, w2))
    ∧ (∀ e w2, dao.Insert w1 tableDef.Name (insertFields a tableDef content) = (some e, w2) →
        stringsContains e "1146" = false →
        CreateHTTPAccessLog lib dao w a = (none, w2))
    ∧ (∀ e w2, dao.Insert w1 tableDef.Name (insertFields a tableDef content) = (some e, w2) →
        stringsContains e "1146" = true →
        CreateHTTPAccessLog lib dao w a =
          match dao.findHTTPAccessLogTable w2 (lib.formatDay a.Timestamp) true with
          | (.error e2, w3) => (some e2, w3)
          | (.ok tableDef2, w3) => dao.Insert w3 tableDef2.Name (insertFields a tableDef content)) := by
  have hunfold := CreateHTTPAccessLog_after_marshal lib dao w w1 a tableDef content hfind hm
  refine ⟨?_, ?_, ?_⟩
  · intro w2 hins
    rw [hunfold, hins]
  · intro e w2 hins he
    exact CreateHTTPAccessLog_other_insert_error lib dao w w1 w2 a tableDef content e hfind hm hins he
  · intro e w2 hins he
    rw [hunfold, hins]
    simp only [he, if_true]
    cases hf : dao.findHTTPAccessLogTable w2 (lib.formatDay a.Timestamp) true with
    | mk res w3 =>
      cases res with
      | error e2 => rfl
      | ok tableDef2 =>
        dsimp only
        cases hi : dao.Insert w3 tableDef2.Name (insertFields a tableDef content) with
        | mk err w4 =>
          cases err with
          | none => rfl
          | some e3 => rfl

theorem create_retries_only_after_missing_table_witness :
    missingTableDAO.findHTTPAccessLogTable (false, 0) (sampleLib.formatDay (sampleLog "a" 0).Timestamp)
        false = (.ok ⟨"edgeHTTPAccessLogs_20240115", true, true⟩, (false, 0))
    ∧ sampleLib.jsonMarshal { sampleLog "a" 0 with RequestBody := [] } = .ok "a"
    ∧ stringsContains "Error 1146: Table does not exist" "1146" = true
    ∧ CreateHTTPAccessLog sampleLib missingTableDAO (false, 0) (sampleLog "a" 0) = (none, (true, 2)) :=
  ⟨rfl, rfl, by decide, by
    rw [(create_retries_only_after_missing_table sampleLib missingTableDAO (false, 0) (false, 0)
      (sampleLog "a" 0) ⟨"edgeHTTPAccessLogs_20240115", true, true⟩ "a" rfl rfl).2.2
      "Error 1146: Table does not exist" (false, 1) rfl (by decide)]
    rfl⟩

/-- One iteration of the drain loop on the first queued record `a`: an error returned by
`CreateHTTPAccessLog` ends the loop, a `nil` lets it go on with one iteration
less. -/
theorem DumpAccessLogsFromQueue.loop_step {W : Type} (lib : Lib) (dao : HTTPAccessLogDAO W)
    (n : Nat) (oldQueue newQueue : Chan pb.HTTPAccessLog) (w : W) (a : pb.HTTPAccessLog)
    (rest : List pb.HTTPAccessLog) (hhead : oldQueue.buf ++ newQueue.buf = a :: rest) :
    DumpAccessLogsFromQueue.loop lib dao (n + 1) oldQueue newQueue w =
      match CreateHTTPAccessLog lib dao w a with
      | (some err, w1) =>
        (some err, ⟨oldQueue.cap, oldQueue.buf.drop 1⟩,
          ⟨newQueue.cap, newQueue.buf.drop (1 - oldQueue.buf.length)⟩, w1)
      | (none, w1) =>
        DumpAccessLogsFromQueue.loop lib dao n ⟨oldQueue.cap, oldQueue.buf.drop 1⟩
          ⟨newQueue.cap, newQueue.buf.drop (1 - oldQueue.buf.length)⟩ w1 := by
  obtain ⟨oc, ob⟩ := oldQueue
  obtain ⟨nc, nb⟩ := newQueue
  cases ob with
  | cons x xs =>
    simp only [List.cons_append, List.cons.injEq] at hhead
    obtain ⟨hx, _⟩ := hhead
    subst hx
    simp only [DumpAccessLogsFromQueue.loop, Chan.tryRecv]
    cases CreateHTTPAccessLog lib dao w x with
    | mk err w1 => cases err <;> simp
  | nil =>
    cases nb with
    | nil => simp at hhead
    | cons y ys =>
      simp only [List.nil_append, List.cons.injEq] at hhead
      obtain ⟨hy, _⟩ := hhead
      subst hy
      simp only [DumpAccessLogsFromQueue.loop, Chan.tryRecv]
      cases CreateHTTPAccessLog lib dao w y with
      | mk err w1 => cases err <;> simp

/-- C15 (counterexample). Resolving the table fails for the first record of the old
generation: `DumpAccessLogsFromQueue` returns that error at once. The record is
gone, the two records queued behind it stay in their queues, nothing is inserted. -/
theorem drain_stops_when_persisting_returns_an_error :
    sampleTwoGenerations.oldAccessLogQueue.buf = [sampleLog "a" 0, sampleLog "b" 0]
    ∧ sampleTwoGenerations.accessLogQueue.buf = [sampleLog "c" 0]
    ∧ DumpAccessLogsFromQueue sampleLib none brokenLookupDAO sampleTwoGenerations 10 0
        = (some "dial tcp: connection refused",
           { sampleTwoGenerations with oldAccessLogQueue := ⟨5, [sampleLog "b" 0]⟩ }, 0) := by
  decide

/-- C15 (amended). Let `a` be the first record queued (in the old generation, or in the
current one when the old one is empty). When `CreateHTTPAccessLog` returns an error
for `a` (the table cannot be resolved, the record cannot be serialised, the table
cannot be created, or the insert after creating it fails),
`DumpAccessLogsFromQueue` returns that error at once and the records queued behind
`a` stay in their queues. When it returns `nil`, which includes a first insert
that fails with an error not containing `1146`, the loop goes on with the records
behind `a`, one iteration less. -/
theorem drain_stops_only_at_a_returned_error {W : Type} (lib : Lib)
    (randomDAO : Option (HTTPAccessLogDAO W)) (sharedDAO : HTTPAccessLogDAO W)
    (s : QueueState) (size : Int) (w : W) (a : pb.HTTPAccessLog) (rest : List pb.HTTPAccessLog)
    (hhead : s.oldAccessLogQueue.buf ++ s.accessLogQueue.buf = a :: rest) :
    (∀ e w1, CreateHTTPAccessLog lib (randomDAO.getD sharedDAO) w a = (some e, w1) →
        DumpAccessLogsFromQueue lib randomDAO sharedDAO s size w =
          (some e,
           { s with
              oldAccessLogQueue := ⟨s.oldAccessLogQueue.cap, s.oldAccessLogQueue.buf.drop 1⟩
              accessLogQueue := ⟨s.accessLogQueue.cap,
                s.accessLogQueue.buf.drop (1 - s.oldAccessLogQueue.buf.length)⟩ },
           w1))
    ∧ (∀ n w1, CreateHTTPAccessLog lib (randomDAO.getD sharedDAO) w a = (none, w1) →
        DumpAccessLogsFromQueue.loop lib (randomDAO.getD sharedDAO) (n + 1)
            s.oldAccessLogQueue s.accessLogQueue w =
          DumpAccessLogsFromQueue.loop lib (randomDAO.getD sharedDAO) n
            ⟨s.oldAccessLogQueue.cap, s.oldAccessLogQueue.buf.drop 1⟩
            ⟨s.accessLogQueue.cap, s.accessLogQueue.buf.drop (1 - s.oldAccessLogQueue.buf.length)⟩
            w1)
    ∧ (∀ tableDef w1 content e w2,
        (randomDAO.getD sharedDAO).findHTTPAccessLogTable w (lib.formatDay a.Timestamp) false
          = (.ok tableDef, w1) →
        lib.jsonMarshal { a with RequestBody := [] } = .ok content →
        (randomDAO.getD sharedDAO).Insert w1 tableDef.Name (insertFields a tableDef content)
          = (some e, w2) →
        stringsContains e "1146" = false →
        CreateHTTPAccessLog lib (randomDAO.getD sharedDAO) w a = (none, w2)) := by
  refine ⟨?_, ?_, ?_⟩
  · intro e w1 hc
    have hL : ∃ n : Nat, (if size ≤ 0 then (1000000 : Int) else size).toNat = n + 1 := by
      by_cases h : size ≤ 0
      · exact ⟨999999, by simp [h]⟩
      · refine ⟨size.toNat - 1, ?_⟩
        simp only [h, if_false]
        omega
    obtain ⟨n, hn⟩ := hL
    simp only [DumpAccessLogsFromQueue]
    rw [hn, DumpAccessLogsFromQueue.loop_step lib _ n _ _ w a rest hhead, hc]
  · intro n w1 hc
    rw [DumpAccessLogsFromQueue.loop_step lib _ n _ _ w a rest hhead, hc]
  · intro tableDef w1 content e w2 hfind hm hins he
    exact CreateHTTPAccessLog_other_insert_error lib _ w w1 w2 a tableDef content e hfind hm hins he

theorem drain_stops_only_at_a_returned_error_witness :
    sampleTwoGenerations.oldAccessLogQueue.buf ++ sampleTwoGenerations.accessLogQueue.buf
        = sampleLog "a" 0 :: [sampleLog "b" 0, sampleLog "c" 0]
    ∧ CreateHTTPAccessLog sampleLib ((none : Option (HTTPAccessLogDAO Nat)).getD brokenLookupDAO)
        0 (sampleLog "a" 0) = (some "dial tcp: connection refused", 0)
    ∧ DumpAccessLogsFromQueue sampleLib none brokenLookupDAO sampleTwoGenerations 10 0
        = (some "dial tcp: connection refused",
           { sampleTwoGenerations with
              oldAccessLogQueue :=
                ⟨sampleTwoGenerations.oldAccessLogQueue.cap,
                  sampleTwoGenerations.oldAccessLogQueue.buf.drop 1⟩
              accessLogQueue :=
                ⟨sampleTwoGenerations.accessLogQueue.cap,
                  sampleTwoGenerations.accessLogQueue.buf.drop
                    (1 - sampleTwoGenerations.oldAccessLogQueue.buf.length)⟩ },
           0) :=
  ⟨by decide, by decide,
    (drain_stops_only_at_a_returned_error sampleLib none brokenLookupDAO sampleTwoGenerations 10 0
      (sampleLog "a" 0) [sampleLog "b" 0, sampleLog "c" 0] (by decide)).1
      "dial tcp: connection refused" 0 (by decide)⟩

/-! ## Theorems: the parameter `requestId` -/

theorem Query.paramValue_Param (q : Query) (name value : String) :
    (q.Param name value).paramValue name = some value := by
  simp [Query.Param, Query.paramValue]

/-- With a cursor, the parameter `requestId` has the value of the cursor when the query
is run, whatever the keyword; without a cursor and with a keyword that looks like a
request id, it has the trimmed keyword. -/
theorem requestId_param_of_keywordAndCursorQuery (keyword whereText lastRequestId : String)
    (reverse : Bool) :
    (lastRequestId ≠ "" →
      (keywordAndCursorQuery keyword whereText lastRequestId reverse).paramValue "requestId"
        = some lastRequestId)
    ∧ (lastRequestId = "" → matchesLongNumber keyword = true →
      (keywordAndCursorQuery keyword whereText lastRequestId reverse).paramValue "requestId"
        = some (trimRightDotSpace keyword)) := by
  constructor
  · intro hc
    have hpos : 0 < lastRequestId.utf8ByteSize := (utf8ByteSize_pos_iff lastRequestId).mpr hc
    unfold keywordAndCursorQuery offsetClause
    rw [if_pos hpos]
    cases reverse <;> simp only [Bool.not_false, Bool.not_true, if_true, Bool.false_eq_true,
      if_false] <;> exact Query.paramValue_Param _ _ _
  · intro hc hk
    subst hc
    unfold keywordAndCursorQuery offsetClause keywordGroup keywordRequestIdAlternative
    simp [hk, String.utf8ByteSize, String.utf8ByteSize.go, Query.Param, Query.Where,
      Query.paramValue]

/-- C17 (code at the failing input). Keyword `20240115100000000002` (20 digits), cursor
`20240115100000000009`, forward search. The keyword group holds the alternative
`requestId=:requestId` and the cursor clause is `requestId<:requestId`; when the
query is run the one parameter `requestId` has the value of the cursor, so the
keyword alternative compares the request id with the cursor, not with the
keyword. -/
theorem keyword_requestId_parameter_is_overwritten_by_cursor :
    matchesLongNumber "20240115100000000002" = true
    ∧ (keywordAndCursorQuery "20240115100000000002" "content LIKE :keyword"
        "20240115100000000009" false).wheres
        = ["(content LIKE :keyword OR requestId=:requestId)", "requestId<:requestId"]
    ∧ (keywordAndCursorQuery "20240115100000000002" "content LIKE :keyword"
        "20240115100000000009" false).paramValue "requestId" = some "20240115100000000009"
    ∧ (keywordAndCursorQuery "20240115100000000002" "content LIKE :keyword"
        "" false).paramValue "requestId" = some "20240115100000000002" := by
  decide

end models
